import Mathlib

/-!
Verification of the session/connection lifecycle and matchmaking manager of the
Ludo websocket server (src/server/websocket/server.py).  The Python code keeps
all state in two process-wide dictionaries of the GameManager object:
games (game id to GameState) and player_to_game (player id to game id).
Python dictionaries preserve insertion order, so they are embedded as
association lists; item assignment updates the value in place when the key is
present (keeping its position) and appends otherwise.  Wall-clock readings of
datetime.utcnow, the uuid4 fresh game identifier, the random module and the
success or failure of each outbound websocket send are inputs chosen by the
environment, so the corresponding operations take them as explicit parameters.
-/

namespace LudoServer

/-- Association-list lookup: the value stored at the first entry whose key
matches, mirroring Python dictionary access. -/
def dictGet {κ α : Type} [DecidableEq κ] : List (κ × α) → κ → Option α
  | [], _ => none
  | e :: rest, k => if e.1 = k then some e.2 else dictGet rest k

/-- Association-list membership test, mirroring the Python `in` operator on a
dictionary. -/
def dictMem {κ α : Type} [DecidableEq κ] (d : List (κ × α)) (k : κ) : Bool :=
  (dictGet d k).isSome

/-- Association-list item assignment, mirroring Python dictionary assignment:
replace the value at an existing key keeping its position, otherwise append a
new entry at the end (insertion order is preserved). -/
def dictSet {κ α : Type} [DecidableEq κ] : List (κ × α) → κ → α → List (κ × α)
  | [], k, v => [(k, v)]
  | e :: rest, k, v => if e.1 = k then (k, v) :: rest else e :: dictSet rest k v

/-- Association-list key deletion, mirroring the Python `del` statement. -/
def eraseKey {κ α : Type} [DecidableEq κ] : List (κ × α) → κ → List (κ × α)
  | [], _ => []
  | e :: rest, k => if e.1 = k then eraseKey rest k else e :: eraseKey rest k

/-- The list of keys of an association list, in insertion order. -/
def keys {κ α : Type} (d : List (κ × α)) : List κ :=
  d.map (fun e => e.1)

/-- Update the value stored at a key in place, leaving all other entries and
the order of entries unchanged.  This mirrors Python code that mutates a field
of the object stored at the key rather than reassigning the dictionary slot. -/
def updateValue {κ α : Type} [DecidableEq κ] (d : List (κ × α)) (k : κ)
    (f : α → α) : List (κ × α) :=
  d.map (fun e => if e.1 = k then (e.1, f e.2) else e)

/-- Game lifecycle phase (Python enum GamePhase). -/
inductive GamePhase
  | waiting
  | playing
  | finished
deriving DecidableEq

/-- The four player colors, in the declaration order of the Python enum
PlayerColor; that order drives color assignment. -/
inductive PlayerColor
  | red
  | green
  | blue
  | yellow
deriving DecidableEq

/-- One participant of a game (Python dataclass Player).  The websocket send
capability is an opaque handle, embedded as a number; the environment chooses
which handles fail to send.  Timestamps are abstract time units. -/
structure Player where
  id : String
  name : String
  websocket : Nat
  color : PlayerColor
  pieces : List Nat
  is_connected : Bool
  join_time : Nat
deriving DecidableEq

/-- One session (Python dataclass GameState).  players is an insertion-ordered
dictionary from player id to Player, and insertion order is the turn order.
The board_state field is always the empty dictionary and never read, so it is
omitted. -/
structure GameState where
  id : String
  players : List (String × Player)
  current_player_index : Nat
  phase : GamePhase
  last_dice_roll : Nat
  created_at : Nat
  updated_at : Nat
deriving DecidableEq

/-- The process-wide registries of the Python class GameManager.  The source
also declares waiting_players but never reads or writes it after
initialization; it is kept here untouched by every operation. -/
structure GameManager where
  games : List (String × GameState)
  player_to_game : List (String × String)
  waiting_players : List String
deriving DecidableEq

/-- The state of the GameManager constructed at module load. -/
def initialManager : GameManager :=
  { games := [], player_to_game := [], waiting_players := [] }

/-- Outbound server events, with the payload fields the code actually sends. -/
inductive ServerEvent
  | game_state_update (currentPlayer : Nat) (gamePhase : GamePhase)
  | dice_rolled (playerId : String) (value : Nat)
  | chat_message (playerId playerName text : String) (timestamp : Nat)
  | player_disconnected (playerId playerName : String)
  | game_joined (gameId playerId : String)
      (players : List (String × String × PlayerColor))
  | error (message : String)
deriving DecidableEq

/-- One attempted websocket send during a broadcast: the recipient player id,
the event sent, and whether delivery succeeded (false means the send raised
and the recipient was marked disconnected). -/
structure SendAttempt where
  recipient : String
  event : ServerEvent
  delivered : Bool
deriving DecidableEq

/-- Python exceptions that the manager operations can raise. -/
inductive PyError
  | keyError (k : String)
  | valueError (msg : String)
  | indexError
deriving DecidableEq

/-- The exception raised by handle_dice_roll on a turn violation. -/
def NotYourTurnError : PyError := PyError.valueError "Not your turn"

/-- The text Python would interpolate into the error event payload. -/
def pyErrorStr : PyError → String
  | PyError.keyError k => k
  | PyError.valueError m => m
  | PyError.indexError => "list index out of range"

/-- The iteration order of the PlayerColor enum. -/
def allColors : List PlayerColor :=
  [PlayerColor.red, PlayerColor.green, PlayerColor.blue, PlayerColor.yellow]

/-- The colors currently assigned inside a game (used_colors in the source). -/
def usedColors (g : GameState) : List PlayerColor :=
  g.players.map (fun e => e.2.color)

/-- GameManager._get_available_color: the first enum color not already used by
a player of the game, defaulting to red when every color is taken. -/
def get_available_color (g : GameState) : PlayerColor :=
  (allColors.filter (fun c => decide (c ∉ usedColors g))).headD PlayerColor.red

/-- The exclusion test of _broadcast_to_game: Python checks
exclude_player and player_id == exclude_player, where a missing or empty
exclude string is falsy. -/
def excludeMatches (exclude : Option String) (pid : String) : Bool :=
  match exclude with
  | none => false
  | some e => !e.isEmpty && decide (pid = e)

/-- Mark one player as disconnected after a failed send. -/
def markDisconnected (p : Player) : Player :=
  { p with is_connected := false }

/-- The effect of one broadcast iteration on one players entry: skipped when
excluded or not connected, marked disconnected when its send fails, otherwise
unchanged.  The conjunct player.websocket of the source guard is an object
reference that is always truthy, so it imposes no extra condition. -/
def bpElem (failing : Nat → Bool) (exclude : Option String)
    (e : String × Player) : String × Player :=
  if excludeMatches exclude e.1 then e
  else if e.2.is_connected && failing e.2.websocket then (e.1, markDisconnected e.2)
  else e

/-- The send loop of _broadcast_to_game over the players dictionary: for each
entry in order, skip the excluded player, skip disconnected players, attempt
the send otherwise, and on failure mark that player disconnected and keep
going.  Returns the updated players and the attempts in loop order. -/
def broadcastPlayers (failing : Nat → Bool) (msg : ServerEvent)
    (exclude : Option String) :
    List (String × Player) → List (String × Player) × List SendAttempt
  | [] => ([], [])
  | e :: rest =>
    let r := broadcastPlayers failing msg exclude rest
    if excludeMatches exclude e.1 then (e :: r.1, r.2)
    else if e.2.is_connected then
      if failing e.2.websocket then
        ((e.1, markDisconnected e.2) :: r.1,
          { recipient := e.1, event := msg, delivered := false } :: r.2)
      else (e :: r.1, { recipient := e.1, event := msg, delivered := true } :: r.2)
    else (e :: r.1, r.2)

/-- GameManager._broadcast_to_game: deliver a message to every connected
player of a game except the excluded one, absorbing per-send failures by
marking the failing player disconnected; a missing game id is a no-op.  The
call is total: it never raises to its caller. -/
def broadcast_to_game (failing : Nat → Bool) (mgr : GameManager)
    (game_id : String) (msg : ServerEvent) (exclude : Option String) :
    GameManager × List SendAttempt :=
  match dictGet mgr.games game_id with
  | none => (mgr, [])
  | some g =>
    let r := broadcastPlayers failing msg exclude g.players
    ({ mgr with games := dictSet mgr.games game_id { g with players := r.1 } },
      r.2)

/-- GameManager._start_game: set the phase of the game to playing, bump
updated_at, and broadcast a game_state_update event to the whole game.  The
missing-game branch cannot be taken from the call site, which has just
inserted the game. -/
def start_game (failing : Nat → Bool) (mgr : GameManager) (game_id : String)
    (now : Nat) : GameManager × List SendAttempt :=
  match dictGet mgr.games game_id with
  | none => (mgr, [])
  | some game =>
    let game1 := { game with phase := GamePhase.playing, updated_at := now }
    let mgr1 := { mgr with games := dictSet mgr.games game_id game1 }
    broadcast_to_game failing mgr1 game_id
      (ServerEvent.game_state_update game1.current_player_index game1.phase) none

/-- The scan of _find_or_create_game over the games registry in insertion
order: the first game that is waiting and has fewer than 4 players. -/
def findOpenGame (games : List (String × GameState)) :
    Option (String × GameState) :=
  games.find? (fun e =>
    decide (e.2.phase = GamePhase.waiting ∧ e.2.players.length < 4))

/-- The Player record constructed by _find_or_create_game: freshly joined
players start connected with no pieces. -/
def newPlayer (player_id player_name : String) (ws : Nat) (c : PlayerColor)
    (now : Nat) : Player :=
  { id := player_id, name := player_name, websocket := ws, color := c,
    pieces := [], is_connected := true, join_time := now }

/-- The start check of _find_or_create_game: once the game that has just been
joined holds at least 2 players, start it.  cnt is the player count of the
updated game. -/
def maybeStart (failing : Nat → Bool) (mgr1 : GameManager) (game_id : String)
    (now cnt : Nat) : GameManager × String × List SendAttempt :=
  if 2 ≤ cnt then
    let r := start_game failing mgr1 game_id now
    (r.1, game_id, r.2)
  else (mgr1, game_id, [])

/-- GameManager._find_or_create_game: join the first open waiting game with a
free slot, assigning the first available color, starting the game once it has
at least 2 players; otherwise create a fresh waiting game whose sole player
gets red.  The fresh uuid4 game id is an environment input. -/
def find_or_create_game (failing : Nat → Bool) (mgr : GameManager)
    (player_id player_name : String) (ws now : Nat) (fresh : String) :
    GameManager × String × List SendAttempt :=
  match findOpenGame mgr.games with
  | some (game_id, game) =>
    let player := newPlayer player_id player_name ws
      (get_available_color game) now
    let game1 := { game with players := dictSet game.players player_id player,
                             updated_at := now }
    let mgr1 := { mgr with
      games := dictSet mgr.games game_id game1,
      player_to_game := dictSet mgr.player_to_game player_id game_id }
    maybeStart failing mgr1 game_id now game1.players.length
  | none =>
    let player := newPlayer player_id player_name ws PlayerColor.red now
    let game : GameState :=
      { id := fresh, players := [(player_id, player)],
        current_player_index := 0, phase := GamePhase.waiting,
        last_dice_roll := 0, created_at := now, updated_at := now }
    ({ mgr with games := dictSet mgr.games fresh game,
                player_to_game := dictSet mgr.player_to_game player_id fresh },
      fresh, [])

/-- The reconnection update of join_game: the stored websocket is replaced
and the connected flag set true; id, name, color and position are untouched. -/
def reconnectPlayer (ws : Nat) (p : Player) : Player :=
  { p with websocket := ws, is_connected := true }

/-- GameManager.join_game: when the player id still maps to a live game that
still lists it, replace the stored websocket and set the connected flag (a
reconnection) and return that game id; otherwise find or create a game. -/
def join_game (failing : Nat → Bool) (mgr : GameManager)
    (player_id player_name : String) (ws now : Nat) (fresh : String) :
    GameManager × String × List SendAttempt :=
  match dictGet mgr.player_to_game player_id with
  | some existing_game_id =>
    match dictGet mgr.games existing_game_id with
    | some game =>
      if dictMem game.players player_id then
        let game1 :=
          { game with players :=
              updateValue game.players player_id (reconnectPlayer ws) }
        ({ mgr with games := dictSet mgr.games existing_game_id game1 },
          existing_game_id, [])
      else find_or_create_game failing mgr player_id player_name ws now fresh
    | none => find_or_create_game failing mgr player_id player_name ws now fresh
  | none => find_or_create_game failing mgr player_id player_name ws now fresh

/-- The value produced by random.randint(1, 6); the environment seed selects
it, and every value of [1, 6] arises for some seed. -/
def randint_1_6 (seed : Nat) : Nat := seed % 6 + 1

/-- The success path of handle_dice_roll: store the rolled value as
last_dice_roll, bump updated_at, broadcast a dice_rolled event, and return
the value together with the attempts made. -/
def diceSuccess (failing : Nat → Bool) (mgr : GameManager)
    (game_id player_id : String) (seed now : Nat) (game : GameState) :
    GameManager × Nat × List SendAttempt :=
  let dice_value := randint_1_6 seed
  let game1 := { game with last_dice_roll := dice_value, updated_at := now }
  let mgr1 := { mgr with games := dictSet mgr.games game_id game1 }
  let r := broadcast_to_game failing mgr1 game_id
    (ServerEvent.dice_rolled player_id dice_value) none
  (r.1, dice_value, r.2)

/-- GameManager.handle_dice_roll: look the game up (KeyError when absent),
read the player id listed at current_player_index (IndexError when out of
range), reject every caller except that player, then store the rolled value
as last_dice_roll, bump updated_at, and broadcast a dice_rolled event.  The
phase is never consulted, and current_player_index is never changed. -/
def handle_dice_roll (failing : Nat → Bool) (mgr : GameManager)
    (game_id player_id : String) (seed now : Nat) :
    Except PyError (GameManager × Nat × List SendAttempt) :=
  match dictGet mgr.games game_id with
  | none => Except.error (PyError.keyError game_id)
  | some game =>
    match (keys game.players)[game.current_player_index]? with
    | none => Except.error PyError.indexError
    | some current_player_id =>
      if player_id ≠ current_player_id then Except.error NotYourTurnError
      else Except.ok (diceSuccess failing mgr game_id player_id seed now game)

/-- GameManager.handle_chat_message: broadcast a chat event to the whole game;
a stale game or player id raises inside the try block and is caught and only
logged, leaving the registries untouched and sending nothing. -/
def handle_chat_message (failing : Nat → Bool) (mgr : GameManager)
    (game_id player_id text : String) (now : Nat) :
    GameManager × List SendAttempt :=
  match dictGet mgr.games game_id with
  | none => (mgr, [])
  | some game =>
    match dictGet game.players player_id with
    | none => (mgr, [])
    | some player =>
      broadcast_to_game failing mgr game_id
        (ServerEvent.chat_message player_id player.name text now) none

/-- The number of players of a game whose connected flag is still true. -/
def countConnected (ps : List (String × Player)) : Nat :=
  (ps.filter (fun e => e.2.is_connected)).length

/-- The tail of handle_player_disconnect: after the broadcast, re-read the
game and schedule a delayed cleanup (300 time units, the 5-minute default)
exactly when no player of that game is still connected. -/
def disconnectFinish (r : GameManager × List SendAttempt) (game_id : String) :
    GameManager × List SendAttempt × Option (String × Nat) :=
  match dictGet r.1.games game_id with
  | none => (r.1, r.2, none)
  | some game2 =>
    if countConnected game2.players = 0 then (r.1, r.2, some (game_id, 300))
    else (r.1, r.2, none)

/-- GameManager.handle_player_disconnect: mark the player disconnected in its
game, broadcast a player_disconnected event to the others, and when the
connected count of that game has dropped to zero return a scheduled delayed
cleanup of the game after 300 time units.  A stale player or game id is
caught and the call is a no-op. -/
def handle_player_disconnect (failing : Nat → Bool) (mgr : GameManager)
    (player_id : String) (now : Nat) :
    GameManager × List SendAttempt × Option (String × Nat) :=
  match dictGet mgr.player_to_game player_id with
  | none => (mgr, [], none)
  | some game_id =>
    match dictGet mgr.games game_id with
    | none => (mgr, [], none)
    | some game =>
      match dictGet game.players player_id with
      | none => (mgr, [], none)
      | some player =>
        let game1 := { game with
          players := updateValue game.players player_id markDisconnected,
          updated_at := now }
        let mgr1 := { mgr with games := dictSet mgr.games game_id game1 }
        disconnectFinish (broadcast_to_game failing mgr1 game_id
          (ServerEvent.player_disconnected player_id player.name)
          (some player_id)) game_id

/-- The reclamation of one game: delete every player of the game from
player_to_game, then delete the game itself; a game id that is not in the
registry is left alone. -/
def removeGame (m : GameManager) (game_id : String) : GameManager :=
  match dictGet m.games game_id with
  | none => m
  | some game =>
    { m with
      player_to_game := (keys game.players).foldl
        (fun d pid => eraseKey d pid) m.player_to_game,
      games := eraseKey m.games game_id }

/-- GameManager._cleanup_empty_game, after its sleep has elapsed: re-check
that the game still exists and still has no connected player, and only then
delete the game and every one of its players from player_to_game.  A game id
already removed is a no-op. -/
def cleanup_empty_game (mgr : GameManager) (game_id : String) : GameManager :=
  match dictGet mgr.games game_id with
  | none => mgr
  | some game =>
    if countConnected game.players = 0 then removeGame mgr game_id
    else mgr

/-- The hourly cleanup_finished_games sweep: collect the finished games whose
updated_at is older than 86400 time units, then remove each one and its
players from the registries. -/
def cleanup_finished_games (mgr : GameManager) (now : Nat) : GameManager :=
  let toRemove := (mgr.games.filter (fun e =>
    decide (e.2.phase = GamePhase.finished ∧ 86400 < now - e.2.updated_at))).map
    (fun e => e.1)
  toRemove.foldl removeGame mgr

/-- Inbound client messages after JSON decoding, one constructor per
recognized type discriminator; gameId carries None when the payload field is
absent. -/
inductive ClientMessage
  | join_game (playerName : String)
  | roll_dice (gameId : Option String)
  | chat_message (gameId : Option String) (message : String)
  | leave_game
  | log
  | other (msgType : String)
deriving DecidableEq

/-- The handle_client_message dispatcher.  Returns the final manager state,
the events sent directly to the calling websocket, and the broadcast attempts
made.  An exception escaping a handler is caught by the outer except block,
which sends an error event to the caller; state mutated before the raise
persists. -/
def handle_client_message (failing : Nat → Bool) (mgr : GameManager)
    (msg : ClientMessage) (player_id : String) (ws seed now : Nat)
    (fresh : String) : GameManager × List ServerEvent × List SendAttempt :=
  match msg with
  | ClientMessage.join_game player_name =>
    let r := join_game failing mgr player_id player_name ws now fresh
    match dictGet r.1.games r.2.1 with
    | some game =>
      (r.1,
        [ServerEvent.game_joined r.2.1 player_id
          (game.players.map (fun e => (e.2.id, e.2.name, e.2.color))),
         ServerEvent.game_state_update game.current_player_index game.phase],
        r.2.2)
    | none =>
      (r.1,
        [ServerEvent.error ("Server error: " ++ pyErrorStr (PyError.keyError r.2.1))],
        r.2.2)
  | ClientMessage.roll_dice gameId =>
    match gameId with
    | none => (mgr, [], [])
    | some game_id =>
      if game_id.isEmpty then (mgr, [], [])
      else
        match handle_dice_roll failing mgr game_id player_id seed now with
        | Except.ok r => (r.1, [], r.2.2)
        | Except.error e =>
          (mgr, [ServerEvent.error ("Server error: " ++ pyErrorStr e)], [])
  | ClientMessage.chat_message gameId text =>
    match gameId with
    | none => (mgr, [], [])
    | some game_id =>
      if game_id.isEmpty || text.isEmpty then (mgr, [], [])
      else
        let r := handle_chat_message failing mgr game_id player_id text now
        (r.1, [], r.2)
  | ClientMessage.leave_game =>
    let r := handle_player_disconnect failing mgr player_id now
    (r.1, [], r.2.1)
  | ClientMessage.log => (mgr, [], [])
  | ClientMessage.other t =>
    (mgr, [ServerEvent.error ("Unknown message type: " ++ t)], [])

/-- The manager state after a roll_dice attempt: the new state on success and
the unchanged state when the handler raises, since the exception escapes
before any mutation. -/
def rollState (failing : Nat → Bool) (mgr : GameManager)
    (game_id player_id : String) (seed now : Nat) : GameManager :=
  match handle_dice_roll failing mgr game_id player_id seed now with
  | Except.ok r => r.1
  | Except.error _ => mgr

/-- One event processed by the single-worker server loop: each constructor is
one entry point that can mutate the registries.  The fresh game id of a join
models uuid4, which never collides with a live game id. -/
inductive ManagerStep : GameManager → GameManager → Prop
  | join (m : GameManager) (failing : Nat → Bool) (pid name : String)
      (ws now : Nat) (fresh : String) (hfresh : dictGet m.games fresh = none) :
      ManagerStep m (join_game failing m pid name ws now fresh).1
  | roll (m : GameManager) (failing : Nat → Bool) (gid pid : String)
      (seed now : Nat) :
      ManagerStep m (rollState failing m gid pid seed now)
  | chat (m : GameManager) (failing : Nat → Bool) (gid pid text : String)
      (now : Nat) :
      ManagerStep m (handle_chat_message failing m gid pid text now).1
  | disconnect (m : GameManager) (failing : Nat → Bool) (pid : String)
      (now : Nat) :
      ManagerStep m (handle_player_disconnect failing m pid now).1
  | cleanupEmpty (m : GameManager) (gid : String) :
      ManagerStep m (cleanup_empty_game m gid)
  | cleanupFinished (m : GameManager) (now : Nat) :
      ManagerStep m (cleanup_finished_games m now)

/-- The states of the registries reachable from process start through any
sequence of processed events. -/
def Reachable (m : GameManager) : Prop :=
  Relation.ReflTransGen ManagerStep initialManager m

/-- Modelled from the spec wording: the lowest-numbered color not already
used, in the enum order red, green, blue, yellow (red when all are taken).
This specification-side description is compared with get_available_color. -/
def lowestUnusedColor (used : List PlayerColor) : PlayerColor :=
  if PlayerColor.red ∉ used then PlayerColor.red
  else if PlayerColor.green ∉ used then PlayerColor.green
  else if PlayerColor.blue ∉ used then PlayerColor.blue
  else if PlayerColor.yellow ∉ used then PlayerColor.yellow
  else PlayerColor.red

/-- The per-session invariant: at most 4 players, pairwise-distinct colors,
unique player ids, a turn index that never leaves 0, and at least one
player. -/
def GameInv (g : GameState) : Prop :=
  g.players.length ≤ 4 ∧
  (usedColors g).Nodup ∧
  (keys g.players).Nodup ∧
  g.current_player_index = 0 ∧
  1 ≤ g.players.length

/-- The registry invariant: game ids are unique and every stored game
satisfies the per-session invariant. -/
def ManagerInv (m : GameManager) : Prop :=
  (keys m.games).Nodup ∧ ∀ e ∈ m.games, GameInv e.2

/-- Numeric rank of a phase along the lifecycle order. -/
def phaseRank : GamePhase → Nat
  | GamePhase.waiting => 0
  | GamePhase.playing => 1
  | GamePhase.finished => 2

/-- The allowed direction of phase change: waiting, then playing, then
finished, never backward. -/
def phaseLE (a b : GamePhase) : Prop := phaseRank a ≤ phaseRank b


/-- Phases of stored games, keyed by game id, never change across a step of
this relation. -/
def StepPhaseMono (m m2 : GameManager) : Prop :=
  ∀ k g g2, dictGet m.games k = some g → dictGet m2.games k = some g2 →
    phaseLE g.phase g2.phase

/-- Whether a fallible call returned normally. -/
def exceptIsOk {ε α : Type} : Except ε α → Bool
  | Except.ok _ => true
  | Except.error _ => false

instance exceptDecidableEq {ε α : Type} [DecidableEq ε] [DecidableEq α] :
    DecidableEq (Except ε α) := fun x y =>
  match x, y with
  | Except.ok a, Except.ok b =>
    if h : a = b then isTrue (by rw [h])
    else isFalse (fun hc => by cases hc; exact h rfl)
  | Except.error a, Except.error b =>
    if h : a = b then isTrue (by rw [h])
    else isFalse (fun hc => by cases hc; exact h rfl)
  | Except.ok a, Except.error b => isFalse (fun hc => by cases hc)
  | Except.error a, Except.ok b => isFalse (fun hc => by cases hc)

/-- The player id stored at current_player_index of a game, when both the
game and the index are valid. -/
def currentPlayerAt (m : GameManager) (gid : String) : Option String :=
  match dictGet m.games gid with
  | none => none
  | some g => (keys g.players)[g.current_player_index]?

/-- An environment in which every websocket send succeeds. -/
def noFailures : Nat → Bool := fun _ => false

/-- The manager state after connection A joins an empty server: one waiting
game g1 whose sole player is A with color red. -/
def s1 : GameManager :=
  (join_game noFailures initialManager "A" "Alice" 1 0 "g1").1

/-- The game stored under g1 in s1. -/
def s1GameA : GameState :=
  { id := "g1", players := [("A", newPlayer "A" "Alice" 1 PlayerColor.red 0)],
    current_player_index := 0, phase := GamePhase.waiting, last_dice_roll := 0,
    created_at := 0, updated_at := 0 }

/-- The manager state after connection B also joins: g1 now holds A and B,
has started, and is playing. -/
def s2 : GameManager := (join_game noFailures s1 "B" "Bob" 2 1 "g2").1

/-- The game stored under g1 in s2. -/
def s2GameA : GameState :=
  { id := "g1", players := [("A", newPlayer "A" "Alice" 1 PlayerColor.red 0), ("B", newPlayer "B" "Bob" 2 PlayerColor.green 1)],
    current_player_index := 0, phase := GamePhase.playing, last_dice_roll := 0,
    created_at := 0, updated_at := 1 }

section DictLemmas

variable {κ α : Type} [DecidableEq κ]

theorem dictGet_dictSet (d : List (κ × α)) (k k2 : κ) (v : α) :
    dictGet (dictSet d k v) k2 = if k2 = k then some v else dictGet d k2 := by
  induction d with
  | nil =>
    by_cases h : k2 = k
    · simp [dictSet, dictGet, h]
    · have h2 : ¬ k = k2 := fun hh => h hh.symm
      simp [dictSet, dictGet, h, h2]
  | cons e rest ih =>
    by_cases he : e.1 = k
    · by_cases h2 : k2 = k
      · simp [dictSet, he, dictGet, h2]
      · have h3 : ¬ k = k2 := fun hh => h2 hh.symm
        have h4 : ¬ e.1 = k2 := fun hh => h2 (hh.symm.trans he)
        simp [dictSet, he, dictGet, h2, h3, h4]
    · by_cases h4 : e.1 = k2
      · have h2 : ¬ k2 = k := fun hh => he (h4.trans hh)
        simp [dictSet, he, dictGet, h4, h2]
      · simp [dictSet, he, dictGet, h4, ih]

theorem mem_dictSet_cases {d : List (κ × α)} {k : κ} {v : α} {e : κ × α}
    (h : e ∈ dictSet d k v) : e = (k, v) ∨ e ∈ d := by
  induction d with
  | nil => simpa [dictSet] using h
  | cons e0 rest ih =>
    by_cases he : e0.1 = k
    · simp only [dictSet, he, if_true, List.mem_cons] at h
      rcases h with h | h
      · exact Or.inl h
      · exact Or.inr (List.mem_cons_of_mem _ h)
    · simp only [dictSet, he, if_false, List.mem_cons] at h
      rcases h with h | h
      · exact Or.inr (List.mem_cons.mpr (Or.inl h))
      · rcases ih h with h2 | h2
        · exact Or.inl h2
        · exact Or.inr (List.mem_cons_of_mem _ h2)

theorem length_dictSet_le (d : List (κ × α)) (k : κ) (v : α) :
    (dictSet d k v).length ≤ d.length + 1 := by
  induction d with
  | nil => simp [dictSet]
  | cons e rest ih =>
    by_cases he : e.1 = k <;> simp [dictSet, he] <;> omega

theorem length_le_dictSet (d : List (κ × α)) (k : κ) (v : α) :
    d.length ≤ (dictSet d k v).length := by
  induction d with
  | nil => simp [dictSet]
  | cons e rest ih =>
    by_cases he : e.1 = k <;> simp [dictSet, he] <;> omega

theorem mem_keys_dictSet {d : List (κ × α)} {k : κ} {v : α} {x : κ}
    (h : x ∈ keys (dictSet d k v)) : x ∈ keys d ∨ x = k := by
  simp only [keys, List.mem_map] at h
  rcases h with ⟨e, he, hx⟩
  rcases mem_dictSet_cases he with h2 | h2
  · right
    rw [← hx, h2]
  · left
    exact List.mem_map.mpr ⟨e, h2, hx⟩

theorem keys_nodup_dictSet {d : List (κ × α)} {k : κ} {v : α}
    (h : (keys d).Nodup) : (keys (dictSet d k v)).Nodup := by
  induction d with
  | nil => simp [dictSet, keys]
  | cons e rest ih =>
    simp only [keys, List.map_cons, List.nodup_cons] at h
    by_cases he : e.1 = k
    · simp only [dictSet, he, if_true, keys, List.map_cons, List.nodup_cons]
      exact ⟨fun hk => h.1 (he ▸ hk), h.2⟩
    · simp only [dictSet, he, if_false, keys, List.map_cons, List.nodup_cons]
      refine ⟨fun hk => ?_, ih h.2⟩
      rcases mem_keys_dictSet hk with h2 | h2
      · exact h.1 h2
      · exact he h2

theorem dictSet_of_not_mem_keys {d : List (κ × α)} {k : κ} (v : α)
    (h : k ∉ keys d) : dictSet d k v = d ++ [(k, v)] := by
  induction d with
  | nil => simp [dictSet]
  | cons e rest ih =>
    simp only [keys, List.map_cons, List.mem_cons, not_or] at h
    have he : ¬ e.1 = k := fun h2 => h.1 h2.symm
    simp only [dictSet, he, if_false, List.cons_append, List.cons.injEq, true_and]
    exact ih (by simpa [keys] using h.2)

theorem dictGet_some_mem {d : List (κ × α)} {k : κ} {v : α}
    (h : dictGet d k = some v) : (k, v) ∈ d := by
  induction d with
  | nil => simp [dictGet] at h
  | cons e rest ih =>
    by_cases he : e.1 = k
    · simp only [dictGet, he, if_true, Option.some.injEq] at h
      have hev : e = (k, v) := by
        cases e
        simp only [Prod.mk.injEq]
        exact ⟨he, h⟩
      exact List.mem_cons.mpr (Or.inl hev.symm)
    · simp only [dictGet, he, if_false] at h
      exact List.mem_cons_of_mem _ (ih h)

theorem dictGet_of_mem_of_nodup {d : List (κ × α)} {k : κ} {v : α}
    (hn : (keys d).Nodup) (h : (k, v) ∈ d) : dictGet d k = some v := by
  induction d with
  | nil => simp at h
  | cons e rest ih =>
    simp only [keys, List.map_cons, List.nodup_cons] at hn
    rcases List.mem_cons.mp h with h2 | h2
    · rw [← h2]
      simp [dictGet]
    · have he : ¬ e.1 = k := by
        intro hk
        exact hn.1 (hk ▸ List.mem_map.mpr ⟨(k, v), h2, rfl⟩ : e.1 ∈ keys rest)
      simp only [dictGet, he, if_false]
      exact ih hn.2 h2

theorem dictGet_eraseKey (d : List (κ × α)) (k k2 : κ) :
    dictGet (eraseKey d k) k2 = if k2 = k then none else dictGet d k2 := by
  induction d with
  | nil => simp [eraseKey, dictGet]
  | cons e rest ih =>
    by_cases he : e.1 = k
    · by_cases hk : k2 = k
      · subst hk
        simp [eraseKey, he, ih]
      · have he2 : ¬ e.1 = k2 := fun h => hk (h.symm.trans he)
        have h3 : ¬ k = k2 := fun h => hk h.symm
        simp [eraseKey, he, dictGet, he2, ih, hk, h3]
    · by_cases he2 : e.1 = k2
      · have hk : ¬ k2 = k := fun h => he (he2.trans h)
        simp [eraseKey, he, dictGet, he2, hk]
      · by_cases hk : k2 = k
        · subst hk
          simp [eraseKey, he, dictGet, he2, ih]
        · simp [eraseKey, he, dictGet, he2, hk, ih]

theorem dictGet_updateValue (d : List (κ × α)) (k k2 : κ) (f : α → α) :
    dictGet (updateValue d k f) k2 =
      if k2 = k then (dictGet d k).map f else dictGet d k2 := by
  induction d with
  | nil => simp [updateValue, dictGet]
  | cons e rest ih =>
    have ih2 : dictGet (List.map (fun e => if e.1 = k then (e.1, f e.2) else e) rest) k2 =
        if k2 = k then (dictGet rest k).map f else dictGet rest k2 := by
      simpa [updateValue] using ih
    by_cases he : e.1 = k
    · by_cases hk : k2 = k
      · subst hk
        simp [updateValue, dictGet, he]
      · have he2 : ¬ e.1 = k2 := fun h => hk (h.symm.trans he)
        have h3 : ¬ k = k2 := fun h => hk h.symm
        simp [updateValue, dictGet, he, he2, hk, h3, ih2]
    · by_cases he2 : e.1 = k2
      · have hk : ¬ k2 = k := fun h => he (he2.trans h)
        simp [updateValue, dictGet, he, he2, hk]
      · by_cases hk : k2 = k
        · subst hk
          simp [updateValue, dictGet, he, he2, ih2]
        · simp [updateValue, dictGet, he, he2, hk, ih2]

theorem keys_updateValue (d : List (κ × α)) (k : κ) (f : α → α) :
    keys (updateValue d k f) = keys d := by
  induction d with
  | nil => rfl
  | cons e rest ih =>
    by_cases he : e.1 = k <;> simp [updateValue, keys, he] <;>
      simpa [updateValue, keys] using ih

theorem length_updateValue (d : List (κ × α)) (k : κ) (f : α → α) :
    (updateValue d k f).length = d.length := by
  simp [updateValue]

theorem dictGet_filter_of_nodup {d : List (κ × α)} {p : κ × α → Bool} {k : κ}
    {v : α} (hn : (keys d).Nodup) (h : dictGet (d.filter p) k = some v) :
    dictGet d k = some v := by
  have hm : (k, v) ∈ d.filter p := dictGet_some_mem h
  exact dictGet_of_mem_of_nodup hn (List.mem_of_mem_filter hm)

end DictLemmas

section BroadcastLemmas

theorem broadcastPlayers_fst (failing : Nat → Bool) (msg : ServerEvent)
    (exclude : Option String) (ps : List (String × Player)) :
    (broadcastPlayers failing msg exclude ps).1 = ps.map (bpElem failing exclude) := by
  induction ps with
  | nil => rfl
  | cons e rest ih =>
    by_cases hx : excludeMatches exclude e.1
    · simp [broadcastPlayers, bpElem, hx, ih]
    · by_cases hc : e.2.is_connected
      · by_cases hf : failing e.2.websocket
        · simp [broadcastPlayers, bpElem, hx, hc, hf, ih]
        · simp [broadcastPlayers, bpElem, hx, hc, hf, ih]
      · simp [broadcastPlayers, bpElem, hx, hc, ih]

theorem broadcastPlayers_snd (failing : Nat → Bool) (msg : ServerEvent)
    (exclude : Option String) (ps : List (String × Player)) :
    (broadcastPlayers failing msg exclude ps).2 =
      (ps.filter (fun e => !excludeMatches exclude e.1 && e.2.is_connected)).map
        (fun e => { recipient := e.1, event := msg,
                    delivered := !failing e.2.websocket }) := by
  induction ps with
  | nil => rfl
  | cons e rest ih =>
    by_cases hx : excludeMatches exclude e.1
    · simp [broadcastPlayers, List.filter_cons, hx, ih]
    · by_cases hc : e.2.is_connected
      · by_cases hf : failing e.2.websocket
        · simp [broadcastPlayers, List.filter_cons, hx, hc, hf, ih]
        · simp [broadcastPlayers, List.filter_cons, hx, hc, hf, ih]
      · simp [broadcastPlayers, List.filter_cons, hx, hc, ih]

theorem bpElem_fst (failing : Nat → Bool) (exclude : Option String)
    (e : String × Player) : (bpElem failing exclude e).1 = e.1 := by
  unfold bpElem
  split
  · rfl
  · split
    · rfl
    · rfl

theorem bpElem_color (failing : Nat → Bool) (exclude : Option String)
    (e : String × Player) : (bpElem failing exclude e).2.color = e.2.color := by
  unfold bpElem
  split
  · rfl
  · split
    · rfl
    · rfl

theorem keys_broadcastPlayers (failing : Nat → Bool) (msg : ServerEvent)
    (exclude : Option String) (ps : List (String × Player)) :
    keys (broadcastPlayers failing msg exclude ps).1 = keys ps := by
  rw [broadcastPlayers_fst]
  unfold keys
  rw [List.map_map]
  exact List.map_congr_left (fun e _ => bpElem_fst failing exclude e)

theorem colors_broadcastPlayers (failing : Nat → Bool) (msg : ServerEvent)
    (exclude : Option String) (ps : List (String × Player)) :
    (broadcastPlayers failing msg exclude ps).1.map (fun e => e.2.color) =
      ps.map (fun e => e.2.color) := by
  rw [broadcastPlayers_fst, List.map_map]
  exact List.map_congr_left (fun e _ => bpElem_color failing exclude e)

theorem length_broadcastPlayers (failing : Nat → Bool) (msg : ServerEvent)
    (exclude : Option String) (ps : List (String × Player)) :
    (broadcastPlayers failing msg exclude ps).1.length = ps.length := by
  rw [broadcastPlayers_fst, List.length_map]

theorem dictGet_broadcastPlayers_color (failing : Nat → Bool)
    (msg : ServerEvent) (exclude : Option String) (ps : List (String × Player))
    (k : String) :
    (dictGet (broadcastPlayers failing msg exclude ps).1 k).map Player.color =
      (dictGet ps k).map Player.color := by
  rw [broadcastPlayers_fst]
  induction ps with
  | nil => rfl
  | cons e rest ih =>
    by_cases he : e.1 = k
    · have h1 : (bpElem failing exclude e).1 = k := (bpElem_fst _ _ _).trans he
      simp [dictGet, he, h1, bpElem_color]
    · have h1 : ¬ (bpElem failing exclude e).1 = k := by
        rw [bpElem_fst]
        exact he
      simp only [List.map_cons, dictGet, he, h1, if_false]
      exact ih

end BroadcastLemmas

theorem get_available_color_eq_lowest (g : GameState) :
    get_available_color g = lowestUnusedColor (usedColors g) := by
  unfold get_available_color lowestUnusedColor allColors
  by_cases h1 : PlayerColor.red ∈ usedColors g <;>
    by_cases h2 : PlayerColor.green ∈ usedColors g <;>
      by_cases h3 : PlayerColor.blue ∈ usedColors g <;>
        by_cases h4 : PlayerColor.yellow ∈ usedColors g <;>
          simp [List.filter_cons, h1, h2, h3, h4]

theorem get_available_color_not_used (g : GameState)
    (hn : (usedColors g).Nodup) (hl : (usedColors g).length < 4) :
    get_available_color g ∉ usedColors g := by
  have hne : allColors.filter (fun c => decide (c ∉ usedColors g)) ≠ [] := by
    intro hemp
    have hall : ∀ c ∈ allColors, c ∈ usedColors g := by
      intro c hc
      have h0 := List.filter_eq_nil_iff.mp hemp c hc
      simpa using h0
    have hsub : allColors.toFinset ⊆ (usedColors g).toFinset := by
      intro c hc
      simp only [List.mem_toFinset] at hc ⊢
      exact hall c hc
    have hcard1 : (usedColors g).toFinset.card = (usedColors g).length :=
      List.toFinset_card_of_nodup hn
    have hcard2 : allColors.toFinset.card = 4 := by decide
    have hcard3 := Finset.card_le_card hsub
    omega
  cases hf : allColors.filter (fun c => decide (c ∉ usedColors g)) with
  | nil => exact absurd hf hne
  | cons c rest =>
    have hc : c ∈ allColors.filter (fun c => decide (c ∉ usedColors g)) := by
      rw [hf]
      exact List.mem_cons_self c rest
    have hprop := (List.mem_filter.mp hc).2
    simp only [decide_eq_true_eq] at hprop
    unfold get_available_color
    rw [hf]
    simpa using hprop

section ListHelperLemmas

theorem mem_eraseKey_sub {κ α : Type} [DecidableEq κ] {d : List (κ × α)}
    {k : κ} {e : κ × α} (h : e ∈ eraseKey d k) : e ∈ d := by
  induction d with
  | nil => simpa [eraseKey] using h
  | cons e0 rest ih =>
    by_cases he : e0.1 = k
    · simp only [eraseKey, he, if_true] at h
      exact List.mem_cons_of_mem _ (ih h)
    · simp only [eraseKey, he, if_false, List.mem_cons] at h
      rcases h with h | h
      · exact List.mem_cons.mpr (Or.inl h)
      · exact List.mem_cons_of_mem _ (ih h)

theorem eraseKey_sublist {κ α : Type} [DecidableEq κ] (d : List (κ × α))
    (k : κ) : (eraseKey d k).Sublist d := by
  induction d with
  | nil => simp [eraseKey]
  | cons e0 rest ih =>
    by_cases he : e0.1 = k
    · simp only [eraseKey, he, if_true]
      exact ih.cons e0
    · simp only [eraseKey, he, if_false]
      exact ih.cons₂ e0

theorem keys_nodup_eraseKey {κ α : Type} [DecidableEq κ]
    {d : List (κ × α)} (k : κ) (h : (keys d).Nodup) :
    (keys (eraseKey d k)).Nodup := by
  have hs : (keys (eraseKey d k)).Sublist (keys d) := by
    unfold keys
    exact (eraseKey_sublist d k).map (fun e => e.1)
  exact h.sublist hs

theorem mem_colors_dictSet {ps : List (String × Player)} {k : String}
    {p : Player} {c : PlayerColor}
    (h : c ∈ (dictSet ps k p).map (fun e => e.2.color)) :
    c ∈ ps.map (fun e => e.2.color) ∨ c = p.color := by
  simp only [List.mem_map] at h
  obtain ⟨e, he, hc⟩ := h
  rcases mem_dictSet_cases he with h2 | h2
  · right
    rw [← hc, h2]
  · left
    exact List.mem_map.mpr ⟨e, h2, hc⟩

theorem nodup_colors_dictSet {ps : List (String × Player)} {k : String}
    {p : Player} (hc : (ps.map (fun e => e.2.color)).Nodup)
    (hnew : p.color ∉ ps.map (fun e => e.2.color)) :
    ((dictSet ps k p).map (fun e => e.2.color)).Nodup := by
  induction ps with
  | nil => simp [dictSet]
  | cons e rest ih =>
    simp only [List.map_cons, List.nodup_cons] at hc
    simp only [List.map_cons, List.mem_cons, not_or] at hnew
    by_cases he : e.1 = k
    · simp only [dictSet, he, if_true, List.map_cons, List.nodup_cons]
      exact ⟨hnew.2, hc.2⟩
    · simp only [dictSet, he, if_false, List.map_cons, List.nodup_cons]
      refine ⟨fun hmem => ?_, ih hc.2 hnew.2⟩
      rcases mem_colors_dictSet hmem with h2 | h2
      · exact hc.1 h2
      · exact hnew.1 h2.symm

theorem colors_updateValue (ps : List (String × Player)) (k : String)
    (f : Player → Player) (hf : ∀ p, (f p).color = p.color) :
    (updateValue ps k f).map (fun e => e.2.color) =
      ps.map (fun e => e.2.color) := by
  unfold updateValue
  rw [List.map_map]
  refine List.map_congr_left (fun e _ => ?_)
  by_cases he : e.1 = k <;> simp [he, hf]

theorem find?_first {α : Type} (p : α → Bool) (l : List α) (a : α)
    (h : l.find? p = some a) :
    ∃ l1 l2, l = l1 ++ a :: l2 ∧ ∀ x ∈ l1, p x = false := by
  induction l with
  | nil => simp [List.find?] at h
  | cons b rest ih =>
    by_cases hb : p b
    · rw [List.find?_cons_of_pos rest hb] at h
      cases h
      exact ⟨[], rest, rfl, by simp⟩
    · rw [List.find?_cons_of_neg rest hb] at h
      obtain ⟨l1, l2, heq, hall⟩ := ih h
      refine ⟨b :: l1, l2, by rw [heq, List.cons_append], ?_⟩
      intro x hx
      rcases List.mem_cons.mp hx with h2 | h2
      · rw [h2]
        simpa using hb
      · exact hall x h2

end ListHelperLemmas

section InvariantPreservation

theorem managerInv_set {m m2 : GameManager} (h : ManagerInv m) {gid : String}
    {g1 : GameState} (hg : GameInv g1)
    (h2 : m2.games = dictSet m.games gid g1) : ManagerInv m2 := by
  constructor
  · rw [h2]
    exact keys_nodup_dictSet h.1
  · intro e he
    rw [h2] at he
    rcases mem_dictSet_cases he with h3 | h3
    · rw [h3]
      exact hg
    · exact h.2 e h3

theorem gameInv_players {g g2 : GameState} (hg : GameInv g)
    (hk : keys g2.players = keys g.players)
    (hc : usedColors g2 = usedColors g)
    (hi : g2.current_player_index = g.current_player_index) : GameInv g2 := by
  obtain ⟨h1, h2, h3, h4, h5⟩ := hg
  have hlen : g2.players.length = g.players.length := by
    have hmap := congrArg List.length hk
    simpa [keys] using hmap
  refine ⟨by omega, ?_, ?_, ?_, by omega⟩
  · rw [hc]
    exact h2
  · rw [hk]
    exact h3
  · rw [hi]
    exact h4

theorem gameInv_broadcast {g : GameState} (hg : GameInv g)
    (failing : Nat → Bool) (msg : ServerEvent) (ex : Option String) :
    GameInv { g with players := (broadcastPlayers failing msg ex g.players).1 } := by
  apply gameInv_players hg
  · exact keys_broadcastPlayers failing msg ex g.players
  · exact colors_broadcastPlayers failing msg ex g.players
  · rfl

theorem managerInv_broadcast (failing : Nat → Bool) {m : GameManager}
    (gid : String) (msg : ServerEvent) (ex : Option String)
    (h : ManagerInv m) : ManagerInv (broadcast_to_game failing m gid msg ex).1 := by
  unfold broadcast_to_game
  split
  · exact h
  · rename_i g hg
    exact managerInv_set h
      (gameInv_broadcast (h.2 _ (dictGet_some_mem hg)) failing msg ex) rfl

theorem gameInv_updateValue {g : GameState} (hg : GameInv g) (k : String)
    (f : Player → Player) (hf : ∀ p, (f p).color = p.color) :
    GameInv { g with players := updateValue g.players k f } := by
  apply gameInv_players hg
  · exact keys_updateValue g.players k f
  · exact colors_updateValue g.players k f hf
  · rfl

theorem findOpenGame_mem {games : List (String × GameState)} {gid : String}
    {g : GameState} (h : findOpenGame games = some (gid, g)) :
    (gid, g) ∈ games ∧ g.phase = GamePhase.waiting ∧ g.players.length < 4 := by
  have hm := List.mem_of_find?_eq_some h
  have hp := List.find?_some h
  simp only [decide_eq_true_eq] at hp
  exact ⟨hm, hp.1, hp.2⟩

theorem managerInv_start (failing : Nat → Bool) {m : GameManager}
    (gid : String) (now : Nat) (h : ManagerInv m) :
    ManagerInv (start_game failing m gid now).1 := by
  unfold start_game
  split
  · exact h
  · rename_i g hg
    apply managerInv_broadcast
    have hg1 : GameInv { g with phase := GamePhase.playing, updated_at := now } :=
      gameInv_players (h.2 _ (dictGet_some_mem hg)) rfl rfl rfl
    exact managerInv_set h hg1 rfl

theorem managerInv_maybeStart (failing : Nat → Bool) {mgr1 : GameManager}
    (gid : String) (now cnt : Nat) (h : ManagerInv mgr1) :
    ManagerInv (maybeStart failing mgr1 gid now cnt).1 := by
  unfold maybeStart
  split
  · exact managerInv_start failing gid now h
  · exact h

theorem managerInv_find_or_create (failing : Nat → Bool) {m : GameManager}
    (pid name : String) (ws now : Nat) (fresh : String) (h : ManagerInv m) :
    ManagerInv (find_or_create_game failing m pid name ws now fresh).1 := by
  unfold find_or_create_game
  split
  · rename_i gid g hf
    obtain ⟨hmem, hwait, hlen⟩ := findOpenGame_mem hf
    have hginv : GameInv g := h.2 _ hmem
    obtain ⟨h1, h2, h3, h4, h5⟩ := hginv
    have hnotused : get_available_color g ∉ usedColors g :=
      get_available_color_not_used g h2 (by simpa [usedColors] using hlen)
    have hg1 : GameInv { g with players := dictSet g.players pid (newPlayer pid name ws (get_available_color g) now), updated_at := now } := by
      unfold GameInv
      refine ⟨?_, ?_, ?_, h4, ?_⟩
      · show (dictSet g.players pid
          (newPlayer pid name ws (get_available_color g) now)).length ≤ 4
        have hd := length_dictSet_le g.players pid
          (newPlayer pid name ws (get_available_color g) now)
        omega
      · show ((dictSet g.players pid
          (newPlayer pid name ws (get_available_color g) now)).map
            (fun e => e.2.color)).Nodup
        exact nodup_colors_dictSet h2 hnotused
      · show (keys (dictSet g.players pid
          (newPlayer pid name ws (get_available_color g) now))).Nodup
        exact keys_nodup_dictSet h3
      · show 1 ≤ (dictSet g.players pid
          (newPlayer pid name ws (get_available_color g) now)).length
        have hd := length_le_dictSet g.players pid
          (newPlayer pid name ws (get_available_color g) now)
        omega
    have hmgr1 : ManagerInv { m with games := dictSet m.games gid ({ g with players := dictSet g.players pid (newPlayer pid name ws (get_available_color g) now), updated_at := now }), player_to_game := dictSet m.player_to_game pid gid } :=
      managerInv_set h hg1 rfl
    exact managerInv_maybeStart failing gid now _ hmgr1
  · rename_i hf
    apply managerInv_set h ?_ rfl
    unfold GameInv
    refine ⟨by simp, by simp [usedColors], by simp [keys], rfl, by simp⟩

theorem managerInv_join (failing : Nat → Bool) {m : GameManager}
    (pid name : String) (ws now : Nat) (fresh : String) (h : ManagerInv m) :
    ManagerInv (join_game failing m pid name ws now fresh).1 := by
  unfold join_game
  split
  · rename_i gid0 h1
    split
    · rename_i g h2
      split
      · rename_i h3
        exact managerInv_set h
          (gameInv_updateValue (h.2 _ (dictGet_some_mem h2)) pid
            (reconnectPlayer ws) (fun p => rfl)) rfl
      · exact managerInv_find_or_create failing pid name ws now fresh h
    · exact managerInv_find_or_create failing pid name ws now fresh h
  · exact managerInv_find_or_create failing pid name ws now fresh h

theorem managerInv_dice_ok {failing : Nat → Bool} {m : GameManager}
    {gid pid : String} {seed now : Nat}
    {r : GameManager × Nat × List SendAttempt} (h : ManagerInv m)
    (hok : handle_dice_roll failing m gid pid seed now = Except.ok r) :
    ManagerInv r.1 := by
  unfold handle_dice_roll at hok
  split at hok
  · cases hok
  · rename_i g hg
    split at hok
    · cases hok
    · rename_i cur hcur
      split at hok
      · cases hok
      · cases hok
        have hg1 : GameInv { g with last_dice_roll := randint_1_6 seed, updated_at := now } :=
          gameInv_players (h.2 _ (dictGet_some_mem hg)) rfl rfl rfl
        have hs : ManagerInv { m with games := dictSet m.games gid ({ g with last_dice_roll := randint_1_6 seed, updated_at := now }) } :=
          managerInv_set h hg1 rfl
        exact managerInv_broadcast failing gid
          (ServerEvent.dice_rolled pid (randint_1_6 seed)) none hs

theorem managerInv_roll (failing : Nat → Bool) {m : GameManager}
    (gid pid : String) (seed now : Nat) (h : ManagerInv m) :
    ManagerInv (rollState failing m gid pid seed now) := by
  unfold rollState
  cases hres : handle_dice_roll failing m gid pid seed now with
  | ok r => exact managerInv_dice_ok h hres
  | error e => exact h

theorem managerInv_chat (failing : Nat → Bool) {m : GameManager}
    (gid pid text : String) (now : Nat) (h : ManagerInv m) :
    ManagerInv (handle_chat_message failing m gid pid text now).1 := by
  unfold handle_chat_message
  split
  · exact h
  · rename_i g h1
    split
    · exact h
    · rename_i p h2
      exact managerInv_broadcast failing gid _ none h

theorem disconnectFinish_fst (r : GameManager × List SendAttempt)
    (gid : String) : (disconnectFinish r gid).1 = r.1 := by
  unfold disconnectFinish
  split
  · rfl
  · split
    · rfl
    · rfl

theorem managerInv_disconnect (failing : Nat → Bool) {m : GameManager}
    (pid : String) (now : Nat) (h : ManagerInv m) :
    ManagerInv (handle_player_disconnect failing m pid now).1 := by
  unfold handle_player_disconnect
  split
  · exact h
  · rename_i gid h1
    split
    · exact h
    · rename_i g h2
      split
      · exact h
      · rename_i p h3
        have hg1 : GameInv { g with players := updateValue g.players pid markDisconnected, updated_at := now } :=
          gameInv_players
            (gameInv_updateValue (h.2 _ (dictGet_some_mem h2)) pid
              markDisconnected (fun q => rfl)) rfl rfl rfl
        have hmgr1 : ManagerInv { m with games := dictSet m.games gid ({ g with players := updateValue g.players pid markDisconnected, updated_at := now }) } :=
          managerInv_set h hg1 rfl
        have hr := managerInv_broadcast failing gid
          (ServerEvent.player_disconnected pid p.name) (some pid) hmgr1
        simp only [disconnectFinish_fst]
        exact hr

theorem managerInv_removeGame {m : GameManager} (gid : String)
    (h : ManagerInv m) : ManagerInv (removeGame m gid) := by
  unfold removeGame
  split
  · exact h
  · rename_i g hg
    constructor
    · exact keys_nodup_eraseKey gid h.1
    · intro e he
      exact h.2 e (mem_eraseKey_sub he)

theorem managerInv_cleanupEmpty {m : GameManager} (gid : String)
    (h : ManagerInv m) : ManagerInv (cleanup_empty_game m gid) := by
  unfold cleanup_empty_game
  split
  · exact h
  · split
    · exact managerInv_removeGame gid h
    · exact h

theorem managerInv_foldl_removeGame {m : GameManager} (l : List String)
    (h : ManagerInv m) : ManagerInv (l.foldl removeGame m) := by
  induction l generalizing m with
  | nil => exact h
  | cons gid rest ih => exact ih (managerInv_removeGame gid h)

theorem managerInv_cleanupFinished {m : GameManager} (now : Nat)
    (h : ManagerInv m) : ManagerInv (cleanup_finished_games m now) := by
  unfold cleanup_finished_games
  exact managerInv_foldl_removeGame _ h

theorem managerInv_step {m m2 : GameManager} (h : ManagerInv m)
    (hs : ManagerStep m m2) : ManagerInv m2 := by
  cases hs with
  | join failing pid name ws now fresh hfresh =>
    exact managerInv_join failing pid name ws now fresh h
  | roll failing gid pid seed now =>
    exact managerInv_roll failing gid pid seed now h
  | chat failing gid pid text now =>
    exact managerInv_chat failing gid pid text now h
  | disconnect failing pid now => exact managerInv_disconnect failing pid now h
  | cleanupEmpty gid => exact managerInv_cleanupEmpty gid h
  | cleanupFinished now => exact managerInv_cleanupFinished now h

theorem initialManager_inv : ManagerInv initialManager := by
  constructor
  · simp [initialManager, keys]
  · intro e he
    simp [initialManager] at he

theorem reachable_inv {m : GameManager} (h : Reachable m) : ManagerInv m := by
  unfold Reachable at h
  induction h with
  | refl => exact initialManager_inv
  | tail _ hbc ih => exact managerInv_step ih hbc

end InvariantPreservation

section PhaseLemmas

theorem phaseLE_refl (a : GamePhase) : phaseLE a a := Nat.le_refl _

theorem dictGet_games_broadcast (failing : Nat → Bool) (m : GameManager)
    (bgid : String) (msg : ServerEvent) (ex : Option String) (k : String)
    {g2 : GameState}
    (h : dictGet (broadcast_to_game failing m bgid msg ex).1.games k = some g2) :
    ∃ g1, dictGet m.games k = some g1 ∧ g2.phase = g1.phase := by
  unfold broadcast_to_game at h
  split at h
  · exact ⟨g2, h, rfl⟩
  · rename_i g hg
    have h2 : dictGet (dictSet m.games bgid ({ g with players := (broadcastPlayers failing msg ex g.players).1 })) k = some g2 := h
    rw [dictGet_dictSet] at h2
    split at h2
    · rename_i hk
      cases h2
      refine ⟨g, ?_, rfl⟩
      rw [hk]
      exact hg
    · exact ⟨g2, h2, rfl⟩

theorem start_game_phase_back (failing : Nat → Bool) (m : GameManager)
    (gid : String) (now : Nat) (k : String) {g2 : GameState}
    (h : dictGet (start_game failing m gid now).1.games k = some g2) :
    ∃ g1, dictGet m.games k = some g1 ∧
      (g2.phase = g1.phase ∨ (k = gid ∧ g2.phase = GamePhase.playing)) := by
  unfold start_game at h
  split at h
  · exact ⟨g2, h, Or.inl rfl⟩
  · rename_i g hg
    obtain ⟨gmid, hmid, hph⟩ := dictGet_games_broadcast _ _ _ _ _ _ h
    have hmid2 : dictGet (dictSet m.games gid ({ g with phase := GamePhase.playing, updated_at := now })) k = some gmid := hmid
    rw [dictGet_dictSet] at hmid2
    split at hmid2
    · rename_i hk
      cases hmid2
      refine ⟨g, ?_, Or.inr ⟨hk, hph⟩⟩
      rw [hk]
      exact hg
    · exact ⟨gmid, hmid2, Or.inl hph⟩

theorem maybeStart_phase_back (failing : Nat → Bool) (m : GameManager)
    (gid : String) (now cnt : Nat) (k : String) {g2 : GameState}
    (h : dictGet (maybeStart failing m gid now cnt).1.games k = some g2) :
    ∃ g1, dictGet m.games k = some g1 ∧
      (g2.phase = g1.phase ∨ (k = gid ∧ g2.phase = GamePhase.playing)) := by
  unfold maybeStart at h
  split at h
  · exact start_game_phase_back failing m gid now k h
  · exact ⟨g2, h, Or.inl rfl⟩

theorem stepPhaseMono_of_back {m m2 : GameManager}
    (h : ∀ k g2, dictGet m2.games k = some g2 →
      ∃ g1, dictGet m.games k = some g1 ∧ g2.phase = g1.phase) :
    StepPhaseMono m m2 := by
  intro k g g2 h1 h2
  obtain ⟨g1, hg1, hph⟩ := h k g2 h2
  rw [h1] at hg1
  cases hg1
  rw [hph]
  exact phaseLE_refl _

theorem stepPhaseMono_refl (m : GameManager) : StepPhaseMono m m :=
  stepPhaseMono_of_back (fun k g2 h2 => ⟨g2, h2, rfl⟩)

theorem stepPhaseMono_find_or_create (failing : Nat → Bool) {m : GameManager}
    (pid name : String) (ws now : Nat) (fresh : String) (hinv : ManagerInv m)
    (hfresh : dictGet m.games fresh = none) :
    StepPhaseMono m (find_or_create_game failing m pid name ws now fresh).1 := by
  unfold find_or_create_game
  split
  · rename_i gid g hf
    obtain ⟨hmem, hwait, hlen⟩ := findOpenGame_mem hf
    have hget : dictGet m.games gid = some g :=
      dictGet_of_mem_of_nodup hinv.1 hmem
    intro k ga g2 h1 h2
    obtain ⟨gmid, hmid, hor⟩ := maybeStart_phase_back failing _ gid now _ k h2
    have hmid2 : dictGet (dictSet m.games gid ({ g with players := dictSet g.players pid (newPlayer pid name ws (get_available_color g) now), updated_at := now })) k = some gmid := hmid
    rw [dictGet_dictSet] at hmid2
    split at hmid2
    · rename_i hk
      cases hmid2
      rw [hk, hget] at h1
      cases h1
      rcases hor with hph | ⟨_, hpl⟩
      · rw [hph]
        exact phaseLE_refl _
      · rw [hpl]
        unfold phaseLE
        rw [hwait]
        exact Nat.zero_le _
    · rw [h1] at hmid2
      cases hmid2
      rcases hor with hph | ⟨hk, hpl⟩
      · rw [hph]
        exact phaseLE_refl _
      · rename_i hkne
        exact absurd hk hkne
  · rename_i hf
    intro k ga g2 h1 h2
    have h2b : dictGet (dictSet m.games fresh ({ id := fresh, players := [(pid, newPlayer pid name ws PlayerColor.red now)], current_player_index := 0, phase := GamePhase.waiting, last_dice_roll := 0, created_at := now, updated_at := now } : GameState)) k = some g2 := h2
    rw [dictGet_dictSet] at h2b
    split at h2b
    · rename_i hk
      rw [hk, hfresh] at h1
      cases h1
    · rw [h1] at h2b
      cases h2b
      exact phaseLE_refl _

theorem stepPhaseMono_join (failing : Nat → Bool) {m : GameManager}
    (pid name : String) (ws now : Nat) (fresh : String) (hinv : ManagerInv m)
    (hfresh : dictGet m.games fresh = none) :
    StepPhaseMono m (join_game failing m pid name ws now fresh).1 := by
  unfold join_game
  split
  · rename_i gid0 h1
    split
    · rename_i g h2
      split
      · rename_i h3
        apply stepPhaseMono_of_back
        intro k g2 hk2
        have hk2b : dictGet (dictSet m.games gid0 ({ g with players := updateValue g.players pid (reconnectPlayer ws) })) k = some g2 := hk2
        rw [dictGet_dictSet] at hk2b
        split at hk2b
        · rename_i hk
          cases hk2b
          refine ⟨g, ?_, rfl⟩
          rw [hk]
          exact h2
        · exact ⟨g2, hk2b, rfl⟩
      · exact stepPhaseMono_find_or_create failing pid name ws now fresh hinv hfresh
    · exact stepPhaseMono_find_or_create failing pid name ws now fresh hinv hfresh
  · exact stepPhaseMono_find_or_create failing pid name ws now fresh hinv hfresh

theorem stepPhaseMono_roll (failing : Nat → Bool) (m : GameManager)
    (gid pid : String) (seed now : Nat) :
    StepPhaseMono m (rollState failing m gid pid seed now) := by
  unfold rollState
  cases hres : handle_dice_roll failing m gid pid seed now with
  | error e => exact stepPhaseMono_refl m
  | ok r =>
    unfold handle_dice_roll at hres
    split at hres
    · cases hres
    · rename_i game hg
      split at hres
      · cases hres
      · split at hres
        · cases hres
        · cases hres
          apply stepPhaseMono_of_back
          intro k g2 h2
          obtain ⟨gmid, hmid, hph⟩ := dictGet_games_broadcast _ _ _ _ _ _ h2
          have hmid2 : dictGet (dictSet m.games gid ({ game with last_dice_roll := randint_1_6 seed, updated_at := now })) k = some gmid := hmid
          rw [dictGet_dictSet] at hmid2
          split at hmid2
          · rename_i hk
            cases hmid2
            refine ⟨game, ?_, hph⟩
            rw [hk]
            exact hg
          · exact ⟨gmid, hmid2, hph⟩

theorem stepPhaseMono_chat (failing : Nat → Bool) (m : GameManager)
    (gid pid text : String) (now : Nat) :
    StepPhaseMono m (handle_chat_message failing m gid pid text now).1 := by
  unfold handle_chat_message
  split
  · exact stepPhaseMono_refl m
  · rename_i g h1
    split
    · exact stepPhaseMono_refl m
    · rename_i p h2
      apply stepPhaseMono_of_back
      intro k g2 hk2
      exact dictGet_games_broadcast _ _ _ _ _ _ hk2

theorem stepPhaseMono_disconnect (failing : Nat → Bool) (m : GameManager)
    (pid : String) (now : Nat) :
    StepPhaseMono m (handle_player_disconnect failing m pid now).1 := by
  unfold handle_player_disconnect
  split
  · exact stepPhaseMono_refl m
  · rename_i gid h1
    split
    · exact stepPhaseMono_refl m
    · rename_i g h2
      split
      · exact stepPhaseMono_refl m
      · rename_i p h3
        apply stepPhaseMono_of_back
        intro k g2 hk2
        rw [disconnectFinish_fst] at hk2
        obtain ⟨gmid, hmid, hph⟩ := dictGet_games_broadcast _ _ _ _ _ _ hk2
        have hmid2 : dictGet (dictSet m.games gid ({ g with players := updateValue g.players pid markDisconnected, updated_at := now })) k = some gmid := hmid
        rw [dictGet_dictSet] at hmid2
        split at hmid2
        · rename_i hk
          cases hmid2
          refine ⟨g, ?_, hph⟩
          rw [hk]
          exact h2
        · exact ⟨gmid, hmid2, hph⟩

theorem dictGet_removeGame_some {m : GameManager} {gid k : String}
    {g2 : GameState} (h : dictGet (removeGame m gid).games k = some g2) :
    dictGet m.games k = some g2 := by
  unfold removeGame at h
  split at h
  · exact h
  · rename_i g hg
    have h2 : dictGet (eraseKey m.games gid) k = some g2 := h
    rw [dictGet_eraseKey] at h2
    split at h2
    · cases h2
    · exact h2

theorem dictGet_foldl_removeGame_some {l : List String} {m : GameManager}
    {k : String} {g2 : GameState}
    (h : dictGet (l.foldl removeGame m).games k = some g2) :
    dictGet m.games k = some g2 := by
  induction l generalizing m with
  | nil => exact h
  | cons gid rest ih => exact dictGet_removeGame_some (ih h)

theorem stepPhaseMono_cleanupEmpty (m : GameManager) (gid : String) :
    StepPhaseMono m (cleanup_empty_game m gid) := by
  apply stepPhaseMono_of_back
  intro k g2 h2
  unfold cleanup_empty_game at h2
  split at h2
  · exact ⟨g2, h2, rfl⟩
  · split at h2
    · exact ⟨g2, dictGet_removeGame_some h2, rfl⟩
    · exact ⟨g2, h2, rfl⟩

theorem stepPhaseMono_cleanupFinished (m : GameManager) (now : Nat) :
    StepPhaseMono m (cleanup_finished_games m now) := by
  apply stepPhaseMono_of_back
  intro k g2 h2
  unfold cleanup_finished_games at h2
  exact ⟨g2, dictGet_foldl_removeGame_some h2, rfl⟩

theorem stepPhaseMono_step {m m2 : GameManager} (hinv : ManagerInv m)
    (hs : ManagerStep m m2) : StepPhaseMono m m2 := by
  cases hs with
  | join failing pid name ws now fresh hfresh =>
    exact stepPhaseMono_join failing pid name ws now fresh hinv hfresh
  | roll failing gid pid seed now => exact stepPhaseMono_roll failing m gid pid seed now
  | chat failing gid pid text now =>
    exact stepPhaseMono_chat failing m gid pid text now
  | disconnect failing pid now => exact stepPhaseMono_disconnect failing m pid now
  | cleanupEmpty gid => exact stepPhaseMono_cleanupEmpty m gid
  | cleanupFinished now => exact stepPhaseMono_cleanupFinished m now

end PhaseLemmas

section EquationLemmas

theorem mem_keys_of_dictMem {κ α : Type} [DecidableEq κ] {d : List (κ × α)}
    {k : κ} (h : dictMem d k = true) : k ∈ keys d := by
  unfold dictMem at h
  cases hg : dictGet d k with
  | none =>
    rw [hg] at h
    cases h
  | some v => exact List.mem_map.mpr ⟨(k, v), dictGet_some_mem hg, rfl⟩

theorem join_game_new (failing : Nat → Bool) (m : GameManager)
    (pid name : String) (ws now : Nat) (fresh : String)
    (hnew : ∀ e ∈ m.games, pid ∉ keys e.2.players) :
    join_game failing m pid name ws now fresh =
      find_or_create_game failing m pid name ws now fresh := by
  unfold join_game
  split
  · rename_i gid0 h1
    split
    · rename_i game h2
      split
      · rename_i h3
        exact absurd (mem_keys_of_dictMem h3) (hnew _ (dictGet_some_mem h2))
      · rfl
    · rfl
  · rfl

theorem join_game_reconnect (failing : Nat → Bool) (m : GameManager)
    (pid name : String) (ws now : Nat) (fresh gid0 : String)
    (game : GameState) (h1 : dictGet m.player_to_game pid = some gid0)
    (h2 : dictGet m.games gid0 = some game)
    (h3 : dictMem game.players pid = true) :
    join_game failing m pid name ws now fresh =
      ({ m with games := dictSet m.games gid0 ({ game with players := updateValue game.players pid (reconnectPlayer ws) }) }, gid0, []) := by
  simp only [join_game, h1, h2, h3, if_true]

theorem find_or_create_found (failing : Nat → Bool) (m : GameManager)
    (pid name : String) (ws now : Nat) (fresh gid : String) (g : GameState)
    (hf : findOpenGame m.games = some (gid, g)) :
    find_or_create_game failing m pid name ws now fresh =
      maybeStart failing { m with games := dictSet m.games gid ({ g with players := dictSet g.players pid (newPlayer pid name ws (get_available_color g) now), updated_at := now }), player_to_game := dictSet m.player_to_game pid gid } gid now (dictSet g.players pid (newPlayer pid name ws (get_available_color g) now)).length := by
  unfold find_or_create_game
  rw [hf]

theorem find_or_create_none (failing : Nat → Bool) (m : GameManager)
    (pid name : String) (ws now : Nat) (fresh : String)
    (hf : findOpenGame m.games = none) :
    find_or_create_game failing m pid name ws now fresh =
      ({ m with games := dictSet m.games fresh ({ id := fresh, players := [(pid, newPlayer pid name ws PlayerColor.red now)], current_player_index := 0, phase := GamePhase.waiting, last_dice_roll := 0, created_at := now, updated_at := now } : GameState), player_to_game := dictSet m.player_to_game pid fresh }, fresh, []) := by
  unfold find_or_create_game
  rw [hf]

theorem maybeStart_ge2 (failing : Nat → Bool) (mgr1 : GameManager)
    (gid : String) (now cnt : Nat) (h : 2 ≤ cnt) :
    maybeStart failing mgr1 gid now cnt =
      ((start_game failing mgr1 gid now).1, gid,
        (start_game failing mgr1 gid now).2) := by
  unfold maybeStart
  rw [if_pos h]

theorem maybeStart_lt2 (failing : Nat → Bool) (mgr1 : GameManager)
    (gid : String) (now cnt : Nat) (h : ¬ 2 ≤ cnt) :
    maybeStart failing mgr1 gid now cnt = (mgr1, gid, []) := by
  unfold maybeStart
  rw [if_neg h]

theorem start_game_found (failing : Nat → Bool) (m : GameManager)
    (gid : String) (now : Nat) (g : GameState)
    (hg : dictGet m.games gid = some g) :
    start_game failing m gid now =
      broadcast_to_game failing { m with games := dictSet m.games gid ({ g with phase := GamePhase.playing, updated_at := now }) } gid (ServerEvent.game_state_update g.current_player_index GamePhase.playing) none := by
  unfold start_game
  rw [hg]

theorem broadcast_found (failing : Nat → Bool) (m : GameManager)
    (gid : String) (msg : ServerEvent) (ex : Option String) (g : GameState)
    (hg : dictGet m.games gid = some g) :
    broadcast_to_game failing m gid msg ex =
      ({ m with games := dictSet m.games gid ({ g with players := (broadcastPlayers failing msg ex g.players).1 }) }, (broadcastPlayers failing msg ex g.players).2) := by
  unfold broadcast_to_game
  rw [hg]

theorem dictGet_foldl_eraseKey {κ α : Type} [DecidableEq κ] (l : List κ)
    (d : List (κ × α)) (k : κ) :
    dictGet (l.foldl (fun d2 k2 => eraseKey d2 k2) d) k =
      if k ∈ l then none else dictGet d k := by
  induction l generalizing d with
  | nil => simp
  | cons a rest ih =>
    simp only [List.foldl_cons]
    rw [ih]
    by_cases hk : k ∈ rest
    · simp [hk]
    · by_cases ha : k = a
      · simp [hk, ha, dictGet_eraseKey]
      · simp [hk, ha, dictGet_eraseKey]

theorem handle_dice_roll_missing (failing : Nat → Bool) (m : GameManager)
    (gid pid : String) (seed now : Nat) (hg : dictGet m.games gid = none) :
    handle_dice_roll failing m gid pid seed now =
      Except.error (PyError.keyError gid) := by
  simp [handle_dice_roll, hg]

theorem handle_dice_roll_not_turn (failing : Nat → Bool) (m : GameManager)
    (gid pid : String) (seed now : Nat) (g : GameState) (cur : String)
    (hg : dictGet m.games gid = some g)
    (hcur : (keys g.players)[g.current_player_index]? = some cur)
    (hne : pid ≠ cur) :
    handle_dice_roll failing m gid pid seed now =
      Except.error NotYourTurnError := by
  simp [handle_dice_roll, hg, hcur, hne]

theorem handle_dice_roll_ok_eq (failing : Nat → Bool) (m : GameManager)
    (gid pid : String) (seed now : Nat) (g : GameState)
    (hg : dictGet m.games gid = some g)
    (hcur : (keys g.players)[g.current_player_index]? = some pid) :
    handle_dice_roll failing m gid pid seed now =
      Except.ok (diceSuccess failing m gid pid seed now g) := by
  simp [handle_dice_roll, hg, hcur]

theorem rollState_of_error {failing : Nat → Bool} {m : GameManager}
    {gid pid : String} {seed now : Nat} {e : PyError}
    (h : handle_dice_roll failing m gid pid seed now = Except.error e) :
    rollState failing m gid pid seed now = m := by
  unfold rollState
  rw [h]

theorem dictSet_dictSet_same {κ α : Type} [DecidableEq κ]
    (d : List (κ × α)) (k : κ) (v v2 : α) :
    dictSet (dictSet d k v) k v2 = dictSet d k v2 := by
  induction d with
  | nil => simp [dictSet]
  | cons e rest ih =>
    by_cases he : e.1 = k
    · simp [dictSet, he]
    · simp [dictSet, he, ih]

theorem start_game_eq (failing : Nat → Bool) (m : GameManager) (gid : String)
    (now : Nat) (g1 : GameState) (hg : dictGet m.games gid = some g1) :
    start_game failing m gid now =
      ({ m with games := dictSet m.games gid ({ g1 with players := (broadcastPlayers failing (ServerEvent.game_state_update g1.current_player_index GamePhase.playing) none g1.players).1, phase := GamePhase.playing, updated_at := now }) }, (broadcastPlayers failing (ServerEvent.game_state_update g1.current_player_index GamePhase.playing) none g1.players).2) := by
  rw [start_game_found failing m gid now g1 hg]
  have hg2 : dictGet ({ m with games := dictSet m.games gid ({ g1 with phase := GamePhase.playing, updated_at := now }) } : GameManager).games gid = some ({ g1 with phase := GamePhase.playing, updated_at := now }) := by
    have h0 := dictGet_dictSet m.games gid gid ({ g1 with phase := GamePhase.playing, updated_at := now })
    simpa using h0
  rw [broadcast_found _ _ _ _ _ _ hg2]
  simp [dictSet_dictSet_same]

end EquationLemmas

theorem s1_games : dictGet s1.games "g1" = some s1GameA := by decide

theorem s2_games : dictGet s2.games "g1" = some s2GameA := by decide

theorem hreach_s1 : Reachable s1 :=
  Relation.ReflTransGen.single
    (ManagerStep.join initialManager noFailures "A" "Alice" 1 0 "g1" rfl)

theorem hreach_s2 : Reachable s2 :=
  Relation.ReflTransGen.tail hreach_s1
    (ManagerStep.join s1 noFailures "B" "Bob" 2 1 "g2" (by decide))

section Claims

/-- C1: the claim states that a successful takeTurn call in a PLAYING session
produces a value in 1..6, stores it as lastRollValue, bumps updatedAt,
broadcasts a roll result to the whole session, and advances turnIndex to
(turnIndex + 1) mod participantCount.  The code does everything except the
advance: handle_dice_roll never writes current_player_index.  At the failing
input (the 2-player playing game g1 of s2, rolled by A with seed 0 at time
5), the roll succeeds, 1 is stored and broadcast to both players, but the
turn index stays 0 instead of becoming (0 + 1) % 2 = 1. -/
theorem claim1_roll_never_advances_turn :
    (dictGet s2.games "g1").map GameState.phase = some GamePhase.playing ∧
    handle_dice_roll noFailures s2 "g1" "A" 0 5 =
      Except.ok (rollState noFailures s2 "g1" "A" 0 5, 1,
        [{ recipient := "A", event := ServerEvent.dice_rolled "A" 1, delivered := true },
         { recipient := "B", event := ServerEvent.dice_rolled "A" 1, delivered := true }]) ∧
    (dictGet (rollState noFailures s2 "g1" "A" 0 5).games "g1").map GameState.last_dice_roll = some 1 ∧
    (dictGet (rollState noFailures s2 "g1" "A" 0 5).games "g1").map GameState.updated_at = some 5 ∧
    (dictGet (rollState noFailures s2 "g1" "A" 0 5).games "g1").map (fun g => g.players.length) = some 2 ∧
    (dictGet (rollState noFailures s2 "g1" "A" 0 5).games "g1").map GameState.current_player_index = some 0 ∧
    (0 : Nat) ≠ (0 + 1) % 2 := by
  decide

/-- C2 counterexample: the claim says takeTurn succeeds only when the session
phase is PLAYING and that every failure is NotYourTurnError.  Both parts fail
on the code: in the 1-player WAITING game g1 of s1 the roll by A succeeds
even though the phase is waiting, and a roll against an absent session raises
KeyError, a different error than NotYourTurnError. -/
theorem claim2_counterexample :
    (dictGet s1.games "g1").map GameState.phase = some GamePhase.waiting ∧
    exceptIsOk (handle_dice_roll noFailures s1 "g1" "A" 0 5) = true ∧
    handle_dice_roll noFailures initialManager "g" "A" 0 5 =
      Except.error (PyError.keyError "g") ∧
    PyError.keyError "g" ≠ NotYourTurnError := by
  decide

/-- C2 amended: takeTurn succeeds exactly when the session exists and the
caller is the participant listed at turnIndex, regardless of phase; when the
session exists and the caller is not that participant it fails with
NotYourTurnError and has no effect; when the session does not exist it fails
with a KeyError lookup error and has no effect. -/
theorem claim2_amended (failing : Nat → Bool) (m : GameManager)
    (gid pid cur : String) (seed now : Nat) :
    (dictGet m.games gid = none →
      handle_dice_roll failing m gid pid seed now =
        Except.error (PyError.keyError gid) ∧
      rollState failing m gid pid seed now = m) ∧
    (currentPlayerAt m gid = some cur → pid ≠ cur →
      handle_dice_roll failing m gid pid seed now =
        Except.error NotYourTurnError ∧
      rollState failing m gid pid seed now = m) ∧
    (currentPlayerAt m gid = some cur → pid = cur →
      exceptIsOk (handle_dice_roll failing m gid pid seed now) = true) := by
  refine ⟨?_, ?_, ?_⟩
  · intro h
    have he := handle_dice_roll_missing failing m gid pid seed now h
    exact ⟨he, rollState_of_error he⟩
  · intro hcur hne
    unfold currentPlayerAt at hcur
    cases hg : dictGet m.games gid with
    | none =>
      rw [hg] at hcur
      cases hcur
    | some g =>
      rw [hg] at hcur
      have hcur2 : (keys g.players)[g.current_player_index]? = some cur := hcur
      have he := handle_dice_roll_not_turn failing m gid pid seed now g cur hg hcur2 hne
      exact ⟨he, rollState_of_error he⟩
  · intro hcur heq
    unfold currentPlayerAt at hcur
    cases hg : dictGet m.games gid with
    | none =>
      rw [hg] at hcur
      cases hcur
    | some g =>
      rw [hg] at hcur
      have hcur2 : (keys g.players)[g.current_player_index]? = some cur := hcur
      subst heq
      rw [handle_dice_roll_ok_eq failing m gid pid seed now g hg hcur2]
      rfl

theorem claim2_amended_witness :
    handle_dice_roll noFailures initialManager "g" "A" 0 5 =
      Except.error (PyError.keyError "g") ∧
    handle_dice_roll noFailures s2 "g1" "B" 0 5 =
      Except.error NotYourTurnError ∧
    rollState noFailures s2 "g1" "B" 0 5 = s2 ∧
    exceptIsOk (handle_dice_roll noFailures s2 "g1" "A" 0 5) = true := by
  refine ⟨?_, ?_, ?_, ?_⟩
  · exact ((claim2_amended noFailures initialManager "g" "A" "x" 0 5).1 (by decide)).1
  · exact ((claim2_amended noFailures s2 "g1" "B" "A" 0 5).2.1 (by decide) (by decide)).1
  · exact ((claim2_amended noFailures s2 "g1" "B" "A" 0 5).2.1 (by decide) (by decide)).2
  · exact (claim2_amended noFailures s2 "g1" "A" "A" 0 5).2.2 (by decide) rfl

/-- C3: in every reachable state every stored session has at most 4
participants with pairwise-distinct colors, its turnIndex is a valid index
into the participant list while the phase is playing, and no processed event
ever moves the phase of a stored session backward along the order waiting,
playing, finished. -/
theorem claim3_session_invariants (m m2 : GameManager) (hr : Reachable m) :
    (∀ e ∈ m.games, e.2.players.length ≤ 4 ∧ (usedColors e.2).Nodup ∧
      (e.2.phase = GamePhase.playing →
        e.2.current_player_index < e.2.players.length)) ∧
    (ManagerStep m m2 → ∀ gid g g2, dictGet m.games gid = some g →
      dictGet m2.games gid = some g2 → phaseLE g.phase g2.phase) := by
  have hinv := reachable_inv hr
  constructor
  · intro e he
    obtain ⟨h1, h2, h3, h4, h5⟩ := hinv.2 e he
    refine ⟨h1, h2, fun hp => ?_⟩
    omega
  · intro hs
    exact stepPhaseMono_step hinv hs

theorem claim3_witness :
    s1GameA.players.length ≤ 4 ∧ phaseLE s1GameA.phase s2GameA.phase := by
  have h := claim3_session_invariants s1 s2 hreach_s1
  refine ⟨(h.1 ("g1", s1GameA) (by decide)).1, ?_⟩
  exact h.2 (ManagerStep.join s1 noFailures "B" "Bob" 2 1 "g2" (by decide))
    "g1" s1GameA s2GameA s1_games s2_games

/-- C10: in every reachable state every stored session has
current_player_index equal to 0: no operation in the code ever advances or
modifies it after session creation, so the first-joined participant is
permanently the one whose rolls are accepted. -/
theorem claim10_turn_index_always_zero (m : GameManager) (hr : Reachable m)
    (gid : String) (g : GameState) (hg : dictGet m.games gid = some g) :
    g.current_player_index = 0 := by
  have hinv := reachable_inv hr
  exact (hinv.2 _ (dictGet_some_mem hg)).2.2.2.1

theorem claim10_witness : s2GameA.current_player_index = 0 :=
  claim10_turn_index_always_zero s2 hreach_s2 "g1" s2GameA s2_games

/-- C5 counterexample: the claim says a third connection C joining while
session S (g1 of s2) is PLAYING with 2 participants is accepted into S as its
third participant.  The code only ever joins WAITING sessions, so C is placed
into a newly created session g3 and g1 still holds exactly A and B. -/
theorem claim5_counterexample :
    (join_game noFailures s2 "C" "Carol" 3 7 "g3").2.1 = "g3" ∧
    (dictGet (join_game noFailures s2 "C" "Carol" 3 7 "g3").1.games "g1").map
      (fun g => keys g.players) = some ["A", "B"] ∧
    (dictGet (join_game noFailures s2 "C" "Carol" 3 7 "g3").1.games "g1").map
      GameState.phase = some GamePhase.playing ∧
    (dictGet (join_game noFailures s2 "C" "Carol" 3 7 "g3").1.games "g3").map
      (fun g => keys g.players) = some ["C"] := by
  decide

/-- C5 amended: a connection joining while no WAITING session exists (in
particular while session S is PLAYING with 2 participants) is not accepted
into S; it gets a newly created WAITING session as sole participant with the
first color, and every other session, S included, is left unchanged, so the
phase of S stays PLAYING. -/
theorem claim5_amended (failing : Nat → Bool) (m : GameManager)
    (pid name : String) (ws now : Nat) (fresh : String)
    (hguard : dictGet m.player_to_game pid = none)
    (hnone : findOpenGame m.games = none) :
    (join_game failing m pid name ws now fresh).2.1 = fresh ∧
    dictGet (join_game failing m pid name ws now fresh).1.games fresh =
      some ({ id := fresh, players := [(pid, newPlayer pid name ws PlayerColor.red now)], current_player_index := 0, phase := GamePhase.waiting, last_dice_roll := 0, created_at := now, updated_at := now } : GameState) ∧
    (∀ gid, gid ≠ fresh →
      dictGet (join_game failing m pid name ws now fresh).1.games gid =
        dictGet m.games gid) := by
  have hj : join_game failing m pid name ws now fresh =
      find_or_create_game failing m pid name ws now fresh := by
    unfold join_game
    rw [hguard]
  rw [hj, find_or_create_none failing m pid name ws now fresh hnone]
  refine ⟨rfl, ?_, ?_⟩
  · show dictGet (dictSet m.games fresh _) fresh = _
    rw [dictGet_dictSet]
    simp
  · intro gid hne
    show dictGet (dictSet m.games fresh _) gid = _
    rw [dictGet_dictSet]
    simp [hne]

theorem claim5_amended_witness :
    (join_game noFailures s2 "C" "Carol" 3 7 "g3").2.1 = "g3" ∧
    dictGet (join_game noFailures s2 "C" "Carol" 3 7 "g3").1.games "g1" =
      dictGet s2.games "g1" := by
  have h := claim5_amended noFailures s2 "C" "Carol" 3 7 "g3" (by decide) (by decide)
  exact ⟨h.1, h.2.2 "g1" (by decide)⟩

/-- C6: joining with a connection id that still maps to a live session that
still lists it is a reconnection: the stored websocket is replaced and the
connected flag set true, the existing session id is returned, no second
participant is created (the key list, its order, and its length are
unchanged), and the assigned color of the participant is preserved. -/
theorem claim6_reconnection (failing : Nat → Bool) (m : GameManager)
    (pid name : String) (ws now : Nat) (fresh gid0 : String)
    (game : GameState) (h1 : dictGet m.player_to_game pid = some gid0)
    (h2 : dictGet m.games gid0 = some game)
    (h3 : dictMem game.players pid = true) :
    (join_game failing m pid name ws now fresh).2.1 = gid0 ∧
    (∃ gf, dictGet (join_game failing m pid name ws now fresh).1.games gid0 = some gf ∧
      keys gf.players = keys game.players ∧
      gf.players.length = game.players.length ∧
      dictGet gf.players pid = (dictGet game.players pid).map (reconnectPlayer ws) ∧
      (dictGet gf.players pid).map Player.color =
        (dictGet game.players pid).map Player.color ∧
      (∀ k, k ≠ pid → dictGet gf.players k = dictGet game.players k)) := by
  rw [join_game_reconnect failing m pid name ws now fresh gid0 game h1 h2 h3]
  refine ⟨rfl, ⟨{ game with players := updateValue game.players pid (reconnectPlayer ws) }, ?_, ?_, ?_, ?_, ?_, ?_⟩⟩
  · show dictGet (dictSet m.games gid0 _) gid0 = _
    rw [dictGet_dictSet]
    simp
  · exact keys_updateValue game.players pid (reconnectPlayer ws)
  · exact length_updateValue game.players pid (reconnectPlayer ws)
  · show dictGet (updateValue game.players pid (reconnectPlayer ws)) pid = _
    rw [dictGet_updateValue]
    simp
  · show (dictGet (updateValue game.players pid (reconnectPlayer ws)) pid).map Player.color = _
    rw [dictGet_updateValue]
    simp only [if_pos rfl]
    cases dictGet game.players pid with
    | none => rfl
    | some p => simp [reconnectPlayer]
  · intro k hk
    show dictGet (updateValue game.players pid (reconnectPlayer ws)) k = _
    rw [dictGet_updateValue]
    simp [hk]

theorem claim6_witness :
    (join_game noFailures s2 "A" "Alice2" 9 3 "g9").2.1 = "g1" ∧
    (dictGet (join_game noFailures s2 "A" "Alice2" 9 3 "g9").1.games "g1").map
      (fun g => keys g.players) = some ["A", "B"] ∧
    (dictGet (join_game noFailures s2 "A" "Alice2" 9 3 "g9").1.games "g1").map
      (fun g => (dictGet g.players "A").map Player.color) =
        some (some PlayerColor.red) := by
  have h := claim6_reconnection noFailures s2 "A" "Alice2" 9 3 "g9" "g1" s2GameA (by decide) s2_games (by decide)
  obtain ⟨hret, gf, hget, hkeys, hlen, hws, hcol, hoth⟩ := h
  refine ⟨hret, ?_, ?_⟩
  · rw [hget]
    show some (keys gf.players) = some ["A", "B"]
    rw [hkeys]
    decide
  · rw [hget]
    show some ((dictGet gf.players "A").map Player.color) =
      some (some PlayerColor.red)
    rw [hcol]
    decide

/-- C7: the broadcast loop attempts delivery to exactly the connected,
non-excluded participants in order; a failed send only flips that
participant's connected flag (bpElem), leaving every other participant
untouched, and delivery continues to the rest; the manager-level call is
total, is a no-op for an absent session id, and otherwise just stores the
updated players and returns the attempts. -/
theorem claim7_broadcast (failing : Nat → Bool) (msg : ServerEvent)
    (ex : Option String) (ps : List (String × Player)) (m : GameManager)
    (gid : String) :
    ((broadcastPlayers failing msg ex ps).2 =
       (ps.filter (fun e => !excludeMatches ex e.1 && e.2.is_connected)).map
         (fun e => { recipient := e.1, event := msg,
                     delivered := !failing e.2.websocket }) ∧
     (broadcastPlayers failing msg ex ps).1 = ps.map (bpElem failing ex)) ∧
    (dictGet m.games gid = none →
      broadcast_to_game failing m gid msg ex = (m, [])) ∧
    (∀ g, dictGet m.games gid = some g →
      broadcast_to_game failing m gid msg ex =
        ({ m with games := dictSet m.games gid ({ g with players := (broadcastPlayers failing msg ex g.players).1 }) }, (broadcastPlayers failing msg ex g.players).2)) := by
  refine ⟨⟨broadcastPlayers_snd failing msg ex ps, broadcastPlayers_fst failing msg ex ps⟩, ?_, ?_⟩
  · intro h
    unfold broadcast_to_game
    rw [h]
  · intro g hg
    exact broadcast_found failing m gid msg ex g hg

theorem claim7_witness :
    broadcast_to_game noFailures initialManager "g" (ServerEvent.error "x") none =
      (initialManager, []) :=
  (claim7_broadcast noFailures (ServerEvent.error "x") none [] initialManager "g").2.1 rfl

theorem disconnectFinish_spec (r : GameManager × List SendAttempt)
    (gid : String) (hsome : (dictGet r.1.games gid).isSome = true) :
    ∃ g2, dictGet (disconnectFinish r gid).1.games gid = some g2 ∧
      (disconnectFinish r gid).2.2 =
        (if countConnected g2.players = 0 then some (gid, 300) else none) := by
  cases hg : dictGet r.1.games gid with
  | none =>
    rw [hg] at hsome
    cases hsome
  | some g2 =>
    refine ⟨g2, ?_, ?_⟩
    · rw [disconnectFinish_fst]
      exact hg
    · unfold disconnectFinish
      rw [hg]
      show (if countConnected g2.players = 0 then (r.1, r.2, some (gid, 300)) else (r.1, r.2, none)).2.2 = if countConnected g2.players = 0 then some (gid, 300) else none
      by_cases hc : countConnected g2.players = 0
      · rw [if_pos hc, if_pos hc]
      · rw [if_neg hc, if_neg hc]

/-- C8: when a disconnect leaves its session with zero connected
participants, a delayed reclamation with the 300-time-unit grace period is
scheduled, and the scheduled cleanup re-checks its precondition at fire time:
it is a no-op when the session is already gone or some participant is
connected again, and otherwise it removes the session from the games registry
and removes every one of its participants from player_to_game. -/
theorem claim8_reclamation (failing : Nat → Bool) (m : GameManager)
    (pid gid : String) (now : Nat) (game : GameState)
    (h1 : dictGet m.player_to_game pid = some gid)
    (h2 : dictGet m.games gid = some game)
    (h3 : dictMem game.players pid = true) :
    (∃ g2, dictGet (handle_player_disconnect failing m pid now).1.games gid = some g2 ∧
      (handle_player_disconnect failing m pid now).2.2 =
        (if countConnected g2.players = 0 then some (gid, 300) else none)) ∧
    (∀ m3 : GameManager, dictGet m3.games gid = none →
      cleanup_empty_game m3 gid = m3) ∧
    (∀ (m3 : GameManager) (g3 : GameState), dictGet m3.games gid = some g3 →
      0 < countConnected g3.players → cleanup_empty_game m3 gid = m3) ∧
    (∀ (m3 : GameManager) (g3 : GameState), dictGet m3.games gid = some g3 →
      countConnected g3.players = 0 →
      (∀ k, dictGet (cleanup_empty_game m3 gid).games k =
        if k = gid then none else dictGet m3.games k) ∧
      (∀ pk, pk ∈ keys g3.players →
        dictGet (cleanup_empty_game m3 gid).player_to_game pk = none) ∧
      (∀ pk, pk ∉ keys g3.players →
        dictGet (cleanup_empty_game m3 gid).player_to_game pk =
          dictGet m3.player_to_game pk)) := by
  refine ⟨?_, ?_, ?_, ?_⟩
  · cases hp : dictGet game.players pid with
    | none =>
      unfold dictMem at h3
      rw [hp] at h3
      cases h3
    | some p =>
      simp only [handle_player_disconnect, h1, h2, hp]
      have hg1 : dictGet ({ m with games := dictSet m.games gid ({ game with players := updateValue game.players pid markDisconnected, updated_at := now }) } : GameManager).games gid = some ({ game with players := updateValue game.players pid markDisconnected, updated_at := now }) := by
        have h0 := dictGet_dictSet m.games gid gid ({ game with players := updateValue game.players pid markDisconnected, updated_at := now })
        simpa using h0
      have hsome : (dictGet (broadcast_to_game failing { m with games := dictSet m.games gid ({ game with players := updateValue game.players pid markDisconnected, updated_at := now }) } gid (ServerEvent.player_disconnected pid p.name) (some pid)).1.games gid).isSome = true := by
        rw [broadcast_found failing _ gid _ (some pid) _ hg1]
        show (dictGet (dictSet (dictSet m.games gid _) gid _) gid).isSome = true
        rw [dictSet_dictSet_same, dictGet_dictSet]
        simp
      exact disconnectFinish_spec _ gid hsome
  · intro m3 h
    unfold cleanup_empty_game
    rw [h]
  · intro m3 g3 hg3 hc
    unfold cleanup_empty_game
    rw [hg3]
    show (if countConnected g3.players = 0 then removeGame m3 gid else m3) = m3
    rw [if_neg (by omega)]
  · intro m3 g3 hg3 hc
    have hcl : cleanup_empty_game m3 gid = removeGame m3 gid := by
      unfold cleanup_empty_game
      rw [hg3]
      show (if countConnected g3.players = 0 then removeGame m3 gid else m3) = removeGame m3 gid
      rw [if_pos hc]
    have hrm : removeGame m3 gid = { m3 with player_to_game := (keys g3.players).foldl (fun d pk => eraseKey d pk) m3.player_to_game, games := eraseKey m3.games gid } := by
      unfold removeGame
      rw [hg3]
    rw [hcl, hrm]
    refine ⟨?_, ?_, ?_⟩
    · intro k
      exact dictGet_eraseKey m3.games gid k
    · intro pk hmem
      show dictGet ((keys g3.players).foldl (fun d pk2 => eraseKey d pk2) m3.player_to_game) pk = none
      rw [dictGet_foldl_eraseKey]
      simp [hmem]
    · intro pk hmem
      show dictGet ((keys g3.players).foldl (fun d pk2 => eraseKey d pk2) m3.player_to_game) pk = dictGet m3.player_to_game pk
      rw [dictGet_foldl_eraseKey]
      simp [hmem]

theorem claim8_witness :
    (∃ g2, dictGet (handle_player_disconnect noFailures s1 "A" 9).1.games "g1" = some g2 ∧
      (handle_player_disconnect noFailures s1 "A" 9).2.2 =
        (if countConnected g2.players = 0 then some ("g1", 300) else none)) ∧
    cleanup_empty_game initialManager "g1" = initialManager := by
  have h := claim8_reclamation noFailures s1 "A" "g1" 9 s1GameA (by decide) s1_games (by decide)
  exact ⟨h.1, h.2.1 initialManager rfl⟩

/-- C9 counterexample: the claim says a stale session id is reported to the
caller as an error event for both takeTurn and sendChat.  For sendChat the
code swallows the failure inside handle_chat_message (it is only logged), so
the caller receives no event at all: at the concrete input below the caller
event list is empty, and the call is a no-op on state. -/
theorem claim9_counterexample :
    handle_client_message noFailures initialManager
      (ClientMessage.chat_message (some "g") "hi") "p" 0 0 0 "f" =
      (initialManager, [], []) := by
  decide

/-- C9 amended: with a gameId absent from the registry, roll_dice reports a
Server error event to the caller and is a no-op on state; chat_message is
also a no-op and never fatal, but its failure is absorbed and only logged, so
no error event reaches the caller.  Neither terminates the process: both
dispatcher branches return normally. -/
theorem claim9_amended (failing : Nat → Bool) (m : GameManager)
    (gid pid text : String) (ws seed now : Nat) (fresh : String)
    (hstale : dictGet m.games gid = none) (hgid : gid.isEmpty = false)
    (htext : text.isEmpty = false) :
    handle_client_message failing m (ClientMessage.roll_dice (some gid)) pid ws seed now fresh =
      (m, [ServerEvent.error ("Server error: " ++ pyErrorStr (PyError.keyError gid))], []) ∧
    handle_client_message failing m (ClientMessage.chat_message (some gid) text) pid ws seed now fresh =
      (m, [], []) := by
  constructor
  · simp [handle_client_message, hgid,
      handle_dice_roll_missing failing m gid pid seed now hstale]
  · simp [handle_client_message, hgid, htext, handle_chat_message, hstale]

theorem claim9_amended_witness :
    handle_client_message noFailures initialManager
      (ClientMessage.roll_dice (some "g")) "p" 0 0 0 "f" =
      (initialManager, [ServerEvent.error ("Server error: " ++ pyErrorStr (PyError.keyError "g"))], []) ∧
    handle_client_message noFailures initialManager
      (ClientMessage.chat_message (some "g") "hi") "p" 0 0 0 "f" =
      (initialManager, [], []) :=
  claim9_amended noFailures initialManager "g" "p" "hi" 0 0 0 "f" rfl rfl rfl

/-- C4: a new join (the connection id is not a participant of any stored
session) scans the games registry in insertion order, first-fit, for a
WAITING session with fewer than 4 participants.  When one is found, the
connection is appended as the last participant (arrival order is turn order)
with the lowest-numbered color not already used there, and once the session
then holds at least the minimum-to-start of 2 participants its phase becomes
PLAYING and a game_state_update event is broadcast to the session.  When no
open session exists, a fresh WAITING session is created whose sole
participant is assigned the first color, red. -/
theorem claim4_new_join (failing : Nat → Bool) (m : GameManager)
    (pid name : String) (ws now : Nat) (fresh : String)
    (hnew : ∀ e ∈ m.games, pid ∉ keys e.2.players) :
    (∀ gid g, findOpenGame m.games = some (gid, g) →
      g.phase = GamePhase.waiting ∧ g.players.length < 4 ∧
      (∃ l1 l2, m.games = l1 ++ (gid, g) :: l2 ∧
        ∀ e ∈ l1, ¬(e.2.phase = GamePhase.waiting ∧ e.2.players.length < 4)) ∧
      (join_game failing m pid name ws now fresh).2.1 = gid ∧
      (∃ gf, dictGet (join_game failing m pid name ws now fresh).1.games gid = some gf ∧
        keys gf.players = keys g.players ++ [pid] ∧
        (dictGet gf.players pid).map Player.color =
          some (lowestUnusedColor (usedColors g)) ∧
        (2 ≤ g.players.length + 1 → gf.phase = GamePhase.playing ∧
          (join_game failing m pid name ws now fresh).2.2 =
            (broadcastPlayers failing (ServerEvent.game_state_update g.current_player_index GamePhase.playing) none (dictSet g.players pid (newPlayer pid name ws (get_available_color g) now))).2) ∧
        (g.players.length + 1 < 2 → gf.phase = GamePhase.waiting))) ∧
    (findOpenGame m.games = none →
      (join_game failing m pid name ws now fresh).2.1 = fresh ∧
      dictGet (join_game failing m pid name ws now fresh).1.games fresh =
        some ({ id := fresh, players := [(pid, newPlayer pid name ws PlayerColor.red now)], current_player_index := 0, phase := GamePhase.waiting, last_dice_roll := 0, created_at := now, updated_at := now } : GameState)) := by
  have hjoin := join_game_new failing m pid name ws now fresh hnew
  constructor
  · intro gid g hf
    obtain ⟨hmem, hwait, hlen⟩ := findOpenGame_mem hf
    have hpidg : pid ∉ keys g.players := hnew _ hmem
    obtain ⟨l1, l2, heq, hall⟩ := find?_first _ m.games _ hf
    have happend := dictSet_of_not_mem_keys
      (newPlayer pid name ws (get_available_color g) now) hpidg
    have hkeysd : keys (dictSet g.players pid (newPlayer pid name ws (get_available_color g) now)) = keys g.players ++ [pid] := by
      rw [happend]
      unfold keys
      rw [List.map_append]
      rfl
    have hlen1 : (dictSet g.players pid (newPlayer pid name ws (get_available_color g) now)).length = g.players.length + 1 := by
      rw [happend]
      simp
    have hgetp : dictGet (dictSet g.players pid (newPlayer pid name ws (get_available_color g) now)) pid = some (newPlayer pid name ws (get_available_color g) now) := by
      rw [dictGet_dictSet]
      simp
    rw [hjoin, find_or_create_found failing m pid name ws now fresh gid g hf]
    refine ⟨hwait, hlen, ⟨l1, l2, heq, fun e he => by simpa using hall e he⟩, ?_, ?_⟩
    · by_cases hstart : 2 ≤ (dictSet g.players pid (newPlayer pid name ws (get_available_color g) now)).length
      · rw [maybeStart_ge2 _ _ _ _ _ hstart]
      · rw [maybeStart_lt2 _ _ _ _ _ hstart]
    · by_cases hstart : 2 ≤ (dictSet g.players pid (newPlayer pid name ws (get_available_color g) now)).length
      · rw [maybeStart_ge2 _ _ _ _ _ hstart]
        have hget1 : dictGet ({ m with games := dictSet m.games gid ({ g with players := dictSet g.players pid (newPlayer pid name ws (get_available_color g) now), updated_at := now }), player_to_game := dictSet m.player_to_game pid gid } : GameManager).games gid = some ({ g with players := dictSet g.players pid (newPlayer pid name ws (get_available_color g) now), updated_at := now }) := by
          have h0 := dictGet_dictSet m.games gid gid ({ g with players := dictSet g.players pid (newPlayer pid name ws (get_available_color g) now), updated_at := now })
          simpa using h0
        rw [start_game_eq failing _ gid now _ hget1]
        have hfin : dictGet (dictSet (dictSet m.games gid ({ g with players := dictSet g.players pid (newPlayer pid name ws (get_available_color g) now), updated_at := now })) gid ({ g with players := (broadcastPlayers failing (ServerEvent.game_state_update g.current_player_index GamePhase.playing) none (dictSet g.players pid (newPlayer pid name ws (get_available_color g) now))).1, phase := GamePhase.playing, updated_at := now })) gid = some ({ g with players := (broadcastPlayers failing (ServerEvent.game_state_update g.current_player_index GamePhase.playing) none (dictSet g.players pid (newPlayer pid name ws (get_available_color g) now))).1, phase := GamePhase.playing, updated_at := now }) := by
          rw [dictSet_dictSet_same, dictGet_dictSet]
          simp
        refine ⟨{ g with players := (broadcastPlayers failing (ServerEvent.game_state_update g.current_player_index GamePhase.playing) none (dictSet g.players pid (newPlayer pid name ws (get_available_color g) now))).1, phase := GamePhase.playing, updated_at := now }, ?_, ?_, ?_, ?_, ?_⟩
        · exact hfin
        · show keys (broadcastPlayers failing (ServerEvent.game_state_update g.current_player_index GamePhase.playing) none (dictSet g.players pid (newPlayer pid name ws (get_available_color g) now))).1 = keys g.players ++ [pid]
          rw [keys_broadcastPlayers]
          exact hkeysd
        · show (dictGet (broadcastPlayers failing (ServerEvent.game_state_update g.current_player_index GamePhase.playing) none (dictSet g.players pid (newPlayer pid name ws (get_available_color g) now))).1 pid).map Player.color = some (lowestUnusedColor (usedColors g))
          rw [dictGet_broadcastPlayers_color, hgetp]
          show some (get_available_color g) = some (lowestUnusedColor (usedColors g))
          rw [get_available_color_eq_lowest]
        · intro h2le
          exact ⟨rfl, rfl⟩
        · intro hlt
          rw [hlen1] at hstart
          omega
      · rw [maybeStart_lt2 _ _ _ _ _ hstart]
        have hg1 : dictGet (dictSet m.games gid ({ g with players := dictSet g.players pid (newPlayer pid name ws (get_available_color g) now), updated_at := now })) gid = some ({ g with players := dictSet g.players pid (newPlayer pid name ws (get_available_color g) now), updated_at := now }) := by
          rw [dictGet_dictSet]
          simp
        refine ⟨{ g with players := dictSet g.players pid (newPlayer pid name ws (get_available_color g) now), updated_at := now }, hg1, ?_, ?_, ?_, ?_⟩
        · exact hkeysd
        · show (dictGet (dictSet g.players pid (newPlayer pid name ws (get_available_color g) now)) pid).map Player.color = some (lowestUnusedColor (usedColors g))
          rw [hgetp]
          show some (get_available_color g) = some (lowestUnusedColor (usedColors g))
          rw [get_available_color_eq_lowest]
        · intro h2le
          rw [← hlen1] at h2le
          exact absurd h2le hstart
        · intro hlt
          exact hwait
  · intro hf
    rw [hjoin, find_or_create_none failing m pid name ws now fresh hf]
    refine ⟨rfl, ?_⟩
    show dictGet (dictSet m.games fresh _) fresh = _
    rw [dictGet_dictSet]
    simp

theorem claim4_witness :
    (join_game noFailures s1 "B" "Bob" 2 1 "g2").2.1 = "g1" ∧
    (dictGet s2.games "g1").map (fun g => keys g.players) = some ["A", "B"] ∧
    (dictGet s2.games "g1").map GameState.phase = some GamePhase.playing := by
  have h := claim4_new_join noFailures s1 "B" "Bob" 2 1 "g2" (by decide)
  have h1 := h.1 "g1" s1GameA (by decide)
  obtain ⟨hwait, hlen, hfirst, hret, gf, hget, hkeys, hcol, hstart, hns⟩ := h1
  have hget2 : dictGet s2.games "g1" = some gf := hget
  refine ⟨hret, ?_, ?_⟩
  · rw [hget2]
    show some (keys gf.players) = some ["A", "B"]
    rw [hkeys]
    decide
  · rw [hget2]
    show some gf.phase = some GamePhase.playing
    rw [(hstart (by decide)).1]

end Claims

end LudoServer
